import Mathlib

/-!
# Verification of the wtt-youtube-organizer backlog queue and match importer

Shallow embedding, in Lean 4, of the stream backlog queue and the idempotent
match importer of the `wtt-youtube-organizer` repository:

* `db/importer/importer.go` — title/player parsing and the transactional
  match importer (`ImportMatchesFromJSONWithConn`);
* `cmd/wtt-youtube-organizer/matchfinder_cli` — the queue store
  (`LoadQueue`/`SaveQueue`/`PrependToQueue`/`RemoveLastEntry`/`TopEntry`),
  `FilterUnprocessed`, `AddNewStreams`, `ShouldUpdateLastProcessed`, and the
  queue drain loop (`processQueueVideos`).

Go strings are modelled as Lean `String` (Go's byte-wise lexicographic order
on UTF-8 coincides with code-point lexicographic order, since UTF-8 is
order-preserving).  Database timestamps are modelled as `Int` seconds since
the Unix epoch.  The PostgreSQL tables are modelled as in-memory lists of
rows plus per-table id sequences; SQL `SELECT ... LIMIT 1`-style lookups
become `List.find?` over the table in row order.
-/

/- ### Go string helpers -/

/-- Lexicographic `≤` on char lists, mirroring Go's built-in string
comparison (byte-wise over UTF-8, which orders exactly like code points). -/
def goCharListLe : List Char → List Char → Bool
  | [], _ => true
  | _ :: _, [] => false
  | a :: as, b :: bs => if a = b then goCharListLe as bs else decide (a < b)

/-- Go's `s <= t` on strings. -/
def goStringLe (a b : String) : Bool := goCharListLe a.toList b.toList

/-- Split a char list at every char satisfying `p`, keeping empty fields. -/
def splitCharList (p : Char → Bool) : List Char → List (List Char)
  | [] => [[]]
  | c :: cs =>
    if p c then [] :: splitCharList p cs
    else match splitCharList p cs with
      | [] => [[c]]
      | w :: ws => (c :: w) :: ws

/-- `strings.Split` with a single-character separator (given as predicate). -/
def goSplit (p : Char → Bool) (s : String) : List String :=
  (splitCharList p s.toList).map String.mk

/-- Drop whitespace from both ends of a char list. -/
def trimCharList (cs : List Char) : List Char :=
  ((cs.dropWhile Char.isWhitespace).reverse.dropWhile Char.isWhitespace).reverse

/-- `strings.TrimSpace` (ASCII whitespace, which the inputs contain). -/
def goTrim (s : String) : String := String.mk (trimCharList s.toList)

/-- `strings.ToLower` (ASCII case folding, which the inputs contain). -/
def goToLower (s : String) : String := String.mk (s.toList.map Char.toLower)

/-- `strings.Fields`: split a string around runs of whitespace.
(Go splits on `unicode.IsSpace`; Lean's `Char.isWhitespace` covers the ASCII
whitespace characters, which is what the video titles contain.) -/
def goFields (s : String) : List String :=
  (goSplit Char.isWhitespace s).filter (fun w => w ≠ "")

/-- `strconv.Atoi`: an optional sign followed by one or more decimal digits;
anything else is an error (`none`).  Go additionally fails on 64-bit
overflow; in `parseTournamentFromTitle` such huge values are rejected by the
`[2020, 2100]` range check either way, so the behaviour is identical there. -/
def goAtoi (s : String) : Option Int :=
  let withSign : Int × List Char :=
    match s.toList with
    | '+' :: rest => (1, rest)
    | '-' :: rest => (-1, rest)
    | cs => (1, cs)
  let sign := withSign.1
  let digits := withSign.2
  if digits.isEmpty then none
  else if digits.all Char.isDigit then
    some (sign * Int.ofNat (digits.foldl (fun a c => a * 10 + (c.toNat - 48)) 0))
  else none

/- ### Title parsing (`db/importer/importer.go`) -/

/-- The scan loop of `parseTournamentFromTitle`, over the segments from index
2 onward: skip a segment with fewer than two whitespace-delimited words, or
whose last word is not an integer in `[2020, 2100]`; on the first segment that
qualifies, return the preceding words joined and lower-cased plus the year. -/
def scanTournamentParts (title : String) : List String → Except String (String × Int)
  | [] => .error ("could not find tournament with year in title: " ++ title)
  | p :: rest =>
    let words := goFields (goTrim p)
    if words.length < 2 then scanTournamentParts title rest
    else
      match goAtoi (words.getLastD "") with
      | none => scanTournamentParts title rest
      | some year =>
        if year < 2020 ∨ year > 2100 then scanTournamentParts title rest
        else .ok (goToLower (String.intercalate " " words.dropLast), year)

/-- `parseTournamentFromTitle`: split the title on `|`, require at least 3
segments, then scan from segment index 2 for a tournament-name/year segment. -/
def parseTournamentFromTitle (title : String) : Except String (String × Int) :=
  let parts := goSplit (fun c => c = '|') title
  if parts.length < 3 then
    .error ("title has " ++ toString parts.length ++
      " pipe-separated parts, expected at least 3")
  else
    scanTournamentParts title (parts.drop 2)

/-- The per-segment rule exactly as claim C4 words it: the segment qualifies
whenever its *last* whitespace-delimited word parses as an integer in
`[2020, 2100]`, with no requirement that any word precede it. -/
def claimSegmentTournament (part : String) : Option (String × Int) :=
  if (goFields (goTrim part)).isEmpty then none
  else
    match goAtoi ((goFields (goTrim part)).getLastD "") with
    | none => none
    | some year =>
      if year < 2020 ∨ year > 2100 then none
      else some (goToLower (String.intercalate " " (goFields (goTrim part)).dropLast), year)

/-- `parseTournamentFromTitle` as claim C4 words it (first qualifying segment
from index 2 onward, with `claimSegmentTournament` as the qualifying rule). -/
def parseTournamentFromTitleClaim (title : String) : Except String (String × Int) :=
  let parts := goSplit (fun c => c = '|') title
  if parts.length < 3 then
    .error ("title has " ++ toString parts.length ++
      " pipe-separated parts, expected at least 3")
  else
    match (parts.drop 2).findSome? claimSegmentTournament with
    | some r => .ok r
    | none => .error ("could not find tournament with year in title: " ++ title)

/-- The per-segment rule of the amended claim: as `claimSegmentTournament`,
but a segment with fewer than two whitespace-delimited words never qualifies. -/
def amendedSegmentTournament (part : String) : Option (String × Int) :=
  if (goFields (goTrim part)).length < 2 then none
  else
    match goAtoi ((goFields (goTrim part)).getLastD "") with
    | none => none
    | some year =>
      if year < 2020 ∨ year > 2100 then none
      else some (goToLower (String.intercalate " " (goFields (goTrim part)).dropLast), year)

/-- Title parsing as the amended claim C4 words it: the first segment from
index 2 onward with at least two words whose last word is a year in range. -/
def parseTournamentFromTitleAmended (title : String) : Except String (String × Int) :=
  let parts := goSplit (fun c => c = '|') title
  if parts.length < 3 then
    .error ("title has " ++ toString parts.length ++
      " pipe-separated parts, expected at least 3")
  else
    match (parts.drop 2).findSome? amendedSegmentTournament with
    | some r => .ok r
    | none => .error ("could not find tournament with year in title: " ++ title)

/-- `parsePlayerName`: a name containing `/` is a doubles pair — split on
`/`, trim each part, drop empty parts; otherwise the trimmed whole name. -/
def parsePlayerName (name : String) : List String :=
  if name.toList.contains '/' then
    (goSplit (fun c => c = '/') name).filterMap fun p =>
      let trimmed := goTrim p
      if trimmed = "" then none else some trimmed
  else [goTrim name]

/- ### `ShouldUpdateLastProcessed` (matchfinder_cli queue code) -/

/-- `ShouldUpdateLastProcessed`: true when the database has no
`last_processed` upload date, or the video's `YYYYMMDD` upload date compares
`>=` the database's one (Go string comparison, i.e. lexicographic). -/
def ShouldUpdateLastProcessed (videoUploadDate dbUploadDate : String) : Bool :=
  if dbUploadDate = "" then true
  else goStringLe dbUploadDate videoUploadDate

/- ### Upload dates and timestamps

`parseUploadDate` mirrors Go's `time.Parse("20060102", s)`: exactly eight
digits, month in `1..12`, day valid for that month and year.  A parsed date
is represented as `Int` seconds since the Unix epoch (midnight UTC), so that
`uploadDate.Add(timestamp seconds)` becomes integer addition. -/

/-- Gregorian leap-year rule. -/
def isLeapYear (y : Int) : Bool :=
  y % 4 = 0 ∧ (y % 100 ≠ 0 ∨ y % 400 = 0)

/-- Number of days of month `m` in year `y`. -/
def daysInMonth (y m : Int) : Int :=
  if m = 2 then (if isLeapYear y then 29 else 28)
  else if m = 4 ∨ m = 6 ∨ m = 9 ∨ m = 11 then 30
  else 31

/-- Days since 1970-01-01 of the civil date `y-m-d` (proleptic Gregorian). -/
def daysFromCivil (y m d : Int) : Int :=
  let y' := y - (if m ≤ 2 then 1 else 0)
  let era := Int.fdiv y' 400
  let yoe := y' - era * 400
  let mp := m + (if m > 2 then -3 else 9)
  let doy := Int.fdiv (153 * mp + 2) 5 + d - 1
  let doe := yoe * 365 + Int.fdiv yoe 4 - Int.fdiv yoe 100 + doy
  era * 146097 + doe - 719468

/-- Civil date `(y, m, d)` of a count of days since 1970-01-01. -/
def civilFromDays (z0 : Int) : Int × Int × Int :=
  let z := z0 + 719468
  let era := Int.fdiv z 146097
  let doe := z - era * 146097
  let yoe := Int.fdiv (doe - Int.fdiv doe 1460 + Int.fdiv doe 36524 - Int.fdiv doe 146096) 365
  let y := yoe + era * 400
  let doy := doe - (365 * yoe + Int.fdiv yoe 4 - Int.fdiv yoe 100)
  let mp := Int.fdiv (5 * doy + 2) 153
  let d := doy - Int.fdiv (153 * mp + 2) 5 + 1
  let m := mp + (if mp < 10 then 3 else -9)
  (y + (if m ≤ 2 then 1 else 0), m, d)

/-- Numeric value of a digit string (assumes digits only). -/
def digitsToInt (cs : List Char) : Int :=
  Int.ofNat (cs.foldl (fun a c => a * 10 + (c.toNat - 48)) 0)

/-- `parseUploadDate`: parse a `YYYYMMDD` string into epoch seconds, or fail
(Go code falls back to `time.Now()` on failure, with a warning). -/
def parseUploadDate (s : String) : Option Int :=
  let cs := s.toList
  if cs.length = 8 ∧ cs.all Char.isDigit then
    let y := digitsToInt (cs.take 4)
    let m := digitsToInt ((cs.drop 4).take 2)
    let d := digitsToInt (cs.drop 6)
    if 1 ≤ m ∧ m ≤ 12 ∧ 1 ≤ d ∧ d ≤ daysInMonth y m then
      some (daysFromCivil y m d * 86400)
    else none
  else none

/-- Left-pad the decimal form of a nonnegative integer to `w` digits. -/
def padNum (w : Nat) (n : Int) : String :=
  let s := toString n.toNat
  String.mk (List.replicate (w - s.length) '0') ++ s

/-- Render epoch seconds back to the `YYYYMMDD` form of their civil date. -/
def formatYYYYMMDD (t : Int) : String :=
  let ymd := civilFromDays (Int.fdiv t 86400)
  padNum 4 ymd.1 ++ padNum 2 ymd.2.1 ++ padNum 2 ymd.2.2

/- ### The relational database model

Rows of the five tables touched by the importer.  `last_processed` is a
nullable boolean in the schema; `NULL` and `false` are indistinguishable to
every query the code issues (`WHERE last_processed = true`), so both are
modelled as `false`. -/

structure Tournament where
  id : Nat
  name : String
  year : Int
deriving Repr, DecidableEq

structure Player where
  id : Nat
  name : String
deriving Repr, DecidableEq

structure VideoRow where
  id : Nat
  youtubeID : String
  title : String
  uploadDate : Int
  lastProcessed : Bool
deriving Repr, DecidableEq

structure MatchRow where
  id : Nat
  tournamentID : Nat
  matchTimestamp : Int
  isDoubles : Bool
  videoID : Nat
deriving Repr, DecidableEq

structure ParticipantRow where
  matchID : Nat
  playerID : Nat
  side : String
deriving Repr, DecidableEq

/-- The database: one list of rows per table (in row order; `List.find?`
models `SELECT ... LIMIT 1`), plus the id sequence of each serial column.
The `matches` table is the field `matchRows` (`matches` is reserved in
Lean). -/
structure DB where
  tournaments : List Tournament
  players : List Player
  videos : List VideoRow
  matchRows : List MatchRow
  participants : List ParticipantRow
  nextTournamentID : Nat
  nextPlayerID : Nat
  nextVideoID : Nat
  nextMatchID : Nat
deriving Repr, DecidableEq

/-- A fresh database. -/
def emptyDB : DB :=
  { tournaments := [], players := [], videos := [], matchRows := [],
    participants := [], nextTournamentID := 0, nextPlayerID := 0,
    nextVideoID := 0, nextMatchID := 0 }

/-- `SELECT id FROM tournaments WHERE name=$1 AND year=$2`, and on no rows
`INSERT INTO tournaments (name, year) ... RETURNING id`. -/
def getOrCreateTournament (name : String) (year : Int) (db : DB) : Nat × DB :=
  match db.tournaments.find? (fun t => t.name = name ∧ t.year = year) with
  | some t => (t.id, db)
  | none =>
    (db.nextTournamentID,
     { db with
        tournaments := db.tournaments ++ [⟨db.nextTournamentID, name, year⟩],
        nextTournamentID := db.nextTournamentID + 1 })

/-- `SELECT id FROM players WHERE name=$1`, and on no rows
`INSERT INTO players (name) ... RETURNING id`. -/
def getOrCreatePlayer (name : String) (db : DB) : Nat × DB :=
  match db.players.find? (fun p => p.name = name) with
  | some p => (p.id, db)
  | none =>
    (db.nextPlayerID,
     { db with
        players := db.players ++ [⟨db.nextPlayerID, name⟩],
        nextPlayerID := db.nextPlayerID + 1 })

/-- The video step of the importer: `SELECT id FROM videos WHERE
youtube_id=$1`; on no rows insert the video (`last_processed` left `NULL`);
otherwise update its title and upload date in place, then delete the
participants of its matches and then the matches themselves. -/
def getOrCreateVideo (youtubeID title : String) (uploadDate : Int) (db : DB) :
    Nat × DB :=
  match db.videos.find? (fun r => r.youtubeID = youtubeID) with
  | none =>
    (db.nextVideoID,
     { db with
        videos := db.videos ++ [⟨db.nextVideoID, youtubeID, title, uploadDate, false⟩],
        nextVideoID := db.nextVideoID + 1 })
  | some r =>
    let vid := r.id
    let dbU := { db with
      videos := db.videos.map fun (w : VideoRow) =>
        if w.id = vid then { w with title := title, uploadDate := uploadDate } else w }
    let dbP := { dbU with
      participants := dbU.participants.filter fun p =>
        ¬ dbU.matchRows.any fun m => m.id = p.matchID ∧ m.videoID = vid }
    let dbM := { dbP with matchRows := dbP.matchRows.filter fun m => ¬ m.videoID = vid }
    (vid, dbM)

/-- Insert one `match_participants` row per team member (get-or-create each
player first), in team order. -/
def insertTeam (matchID : Nat) (side : String) : List String → DB → DB
  | [], db => db
  | name :: rest, db =>
    let pidDb := getOrCreatePlayer name db
    let db := { pidDb.2 with
      participants := pidDb.2.participants ++ [⟨matchID, pidDb.1, side⟩] }
    insertTeam matchID side rest db

/-- Insert the matches of the video in input order: for each entry, parse the
two team strings, compute `match_timestamp = upload_date + timestamp`, insert
the `matches` row, then the side-A and side-B participants. -/
def insertMatches (tournamentID videoID : Nat) (uploadDate : Int) :
    List (Int × String × String) → DB → DB
  | [], db => db
  | m :: rest, db =>
    let teamA := parsePlayerName m.2.1
    let teamB := parsePlayerName m.2.2
    let isDoubles := teamA.length > 1 ∨ teamB.length > 1
    let matchTime := uploadDate + m.1
    let mid := db.nextMatchID
    let db := { db with
      matchRows := db.matchRows ++ [⟨mid, tournamentID, matchTime, isDoubles, videoID⟩],
      nextMatchID := mid + 1 }
    let db := insertTeam mid "A" teamA db
    let db := insertTeam mid "B" teamB db
    insertMatches tournamentID videoID uploadDate rest db

/-- `UPDATE videos SET last_processed = NULL WHERE last_processed = true`,
then `UPDATE videos SET last_processed = true WHERE id = $1`. -/
def setWatermarkRow (videoID : Nat) (db : DB) : DB :=
  let db := { db with
    videos := db.videos.map fun (r : VideoRow) => { r with lastProcessed := false } }
  { db with
    videos := db.videos.map fun (r : VideoRow) =>
      if r.id = videoID then { r with lastProcessed := true } else r }

/- ### The importer (`ImportMatchesFromJSONWithConn`) -/

/-- One match entry of the producer JSON. -/
structure MatchJSON where
  timestamp : Int
  player1 : String
  player2 : String
deriving Repr, DecidableEq

/-- One video of the producer JSON (`VideoDescriptor` of the spec); the
`matches` field is `matchEntries` here (`matches` is reserved in Lean). -/
structure VideoJSON where
  videoID : String
  videoTitle : String
  uploadDate : String
  matchEntries : List MatchJSON
deriving Repr, DecidableEq

/-- The per-video body of `ImportMatchesFromJSONWithConn`: parse the
tournament from the title (fatal on failure, before the transaction starts);
then, inside one transaction: get-or-create the tournament, parse the upload
date (falling back to the wall clock `now` on failure), get-or-create the
video (deleting its old matches and participants when it already exists),
insert the new matches and participants, and - when this video is the first
of its file (`isNewest`) - clear `last_processed` everywhere and set it on
this video; finally commit.  The returned `DB` is the committed state; on
error the transaction rolls back, so the caller keeps its original `DB`. -/
def importVideo (now : Int) (isNewest : Bool) (db : DB) (v : VideoJSON) :
    Except String DB :=
  match parseTournamentFromTitle v.videoTitle with
  | .error e => .error ("failed to parse tournament from title: " ++ e)
  | .ok tn =>
    let tidDb := getOrCreateTournament tn.1 tn.2 db
    let uploadDate := match parseUploadDate v.uploadDate with
      | some t => t
      | none => now
    let vidDb := getOrCreateVideo v.videoID v.videoTitle uploadDate tidDb.2
    let db := insertMatches tidDb.1 vidDb.1 uploadDate
      (v.matchEntries.map fun m => (m.timestamp, m.player1, m.player2)) vidDb.2
    let db := if isNewest then setWatermarkRow vidDb.1 db else db
    .ok db

/-- The loop of `ImportMatchesFromJSONWithConn` over the videos of one file:
`isNewest` holds exactly for index 0; each video commits its own transaction,
and the first failure stops the loop (earlier commits persist). -/
def importVideoLoop (now : Int) (isNewest : Bool) (db : DB) :
    List VideoJSON → DB × Option String
  | [] => (db, none)
  | v :: rest =>
    match importVideo now isNewest db v with
    | .error e => (db, some e)
    | .ok db' => importVideoLoop now false db' rest

/-- `ImportMatchesFromJSONWithConn` after the file has been read and
decoded: an empty video list is an error, otherwise import each video with
`isNewest` true only for the first. -/
def importMatchesFromJSON (now : Int) (db : DB) (videos : List VideoJSON) :
    DB × Option String :=
  match videos with
  | [] => (db, some "no videos found in JSON file")
  | _ => importVideoLoop now true db videos

/-- Modelled from the spec: `SetWatermark(video_id)` / the importer package's
`UpdateLastProcessed(youtubeID)` whose source file is not in the repository
snapshot (only its callers and the interface `LastProcessedDB` are) - clears
`last_processed` on every row, then sets it on the row matching the given
youtube id. -/
def UpdateLastProcessed (db : DB) (youtubeID : String) : DB :=
  let db := { db with
    videos := db.videos.map fun (r : VideoRow) => { r with lastProcessed := false } }
  { db with
    videos := db.videos.map fun (r : VideoRow) =>
      if r.youtubeID = youtubeID then { r with lastProcessed := true } else r }

/-- Modelled from the spec: `GetWatermarkUploadDate` / the importer package's
`GetLastProcessedUploadDate` whose source file is not in the repository
snapshot - returns the `YYYYMMDD` form of the upload date of the row with
`last_processed = true`, or the empty string if no watermark exists. -/
def GetLastProcessedUploadDate (db : DB) : String :=
  match db.videos.find? (fun r => r.lastProcessed) with
  | some r => formatYYYYMMDD r.uploadDate
  | none => ""

/-- Number of rows holding the watermark (`last_processed = true`). -/
def watermarkCount (db : DB) : Nat :=
  (db.videos.filter fun r => r.lastProcessed).length

/-- Integrity of a database state, as the schema's constraints provide it:
serial ids below their sequences, unique video ids, and the two foreign keys
the importer's delete/reinsert step relies on. -/
structure WF (db : DB) : Prop where
  videoIdsLt : ∀ r ∈ db.videos, r.id < db.nextVideoID
  videoIdsNodup : (db.videos.map VideoRow.id).Nodup
  matchIdsLt : ∀ m ∈ db.matchRows, m.id < db.nextMatchID
  matchVideoFK : ∀ m ∈ db.matchRows, m.videoID ∈ db.videos.map VideoRow.id
  partMatchFK : ∀ p ∈ db.participants, p.matchID ∈ db.matchRows.map MatchRow.id

/-- A `matches` row with its generated id projected away. -/
def matchContent (m : MatchRow) : Nat × Int × Bool × Nat :=
  (m.tournamentID, m.matchTimestamp, m.isDoubles, m.videoID)

/-- A `match_participants` row with its match id projected away. -/
def partContent (p : ParticipantRow) : Nat × String :=
  (p.playerID, p.side)

/-- The participants of one match, in row order. -/
def partsOfMatch (db : DB) (matchID : Nat) : List (Nat × String) :=
  db.participants.filterMap fun p =>
    if p.matchID = matchID then some (p.playerID, p.side) else none

/-- The observable content of the `matches`/`match_participants` tables:
every match in row order, with its generated id replaced by its participant
list.  Two databases with equal `dbObs` hold the same matches and the same
participants, match for match. -/
def dbObs (db : DB) : List ((Nat × Int × Bool × Nat) × List (Nat × String)) :=
  db.matchRows.map fun m => (matchContent m, partsOfMatch db m.id)

/- ### The queue store (matchfinder_cli)

The queue file holds `json.MarshalIndent` output for a `[]QueueEntry`.  The
byte-level rendering/parsing is `encoding/json`'s own inverse pair; the
embedding models the file at the JSON-value level, with `encodeQueue` what
`SaveQueue` marshals and `decodeQueue` how `json.Unmarshal` reads a value
into `[]QueueEntry` (objects matched field-by-field, unknown keys ignored,
missing keys left at the zero value, `null` a no-op, any other shape an
error). -/

/-- A JSON value. -/
inductive JsonVal where
  | null : JsonVal
  | bool (b : Bool) : JsonVal
  | num (n : Int) : JsonVal
  | str (s : String) : JsonVal
  | arr (xs : List JsonVal) : JsonVal
  | obj (fields : List (String × JsonVal)) : JsonVal

/-- An entry of the processing queue (`QueueEntry`). -/
structure QueueEntry where
  videoID : String
  videoTitle : String
  uploadDate : String
deriving Repr, DecidableEq, Inhabited

/-- The JSON object `SaveQueue` marshals for one entry (struct field order). -/
def encodeQueueEntry (e : QueueEntry) : JsonVal :=
  .obj [("video_id", .str e.videoID), ("video_title", .str e.videoTitle),
        ("upload_date", .str e.uploadDate)]

/-- The JSON array `SaveQueue` marshals for a queue. -/
def encodeQueue (q : List QueueEntry) : JsonVal :=
  .arr (q.map encodeQueueEntry)

/-- `encoding/json` key matching: exact, else ASCII case-insensitive. -/
def jsonKeyMatches (k tag : String) : Bool :=
  goToLower k = goToLower tag

/-- Unmarshal one object member into the struct: a matching key must hold a
string (or `null`, which leaves the field untouched); unknown keys are
ignored; later duplicates overwrite earlier ones. -/
def applyQueueField (e : QueueEntry) (k : String) (v : JsonVal) :
    Except String QueueEntry :=
  if jsonKeyMatches k "video_id" then
    match v with
    | .str s => .ok { e with videoID := s }
    | .null => .ok e
    | _ => .error "cannot unmarshal into field video_id of type string"
  else if jsonKeyMatches k "video_title" then
    match v with
    | .str s => .ok { e with videoTitle := s }
    | .null => .ok e
    | _ => .error "cannot unmarshal into field video_title of type string"
  else if jsonKeyMatches k "upload_date" then
    match v with
    | .str s => .ok { e with uploadDate := s }
    | .null => .ok e
    | _ => .error "cannot unmarshal into field upload_date of type string"
  else .ok e

/-- Unmarshal one JSON value into a `QueueEntry` (zero value, then members
in order). -/
def decodeQueueEntry : JsonVal → Except String QueueEntry
  | .obj fields => go default fields
  | .null => .ok default
  | _ => .error "cannot unmarshal into QueueEntry"
where
  go (e : QueueEntry) : List (String × JsonVal) → Except String QueueEntry
    | [] => .ok e
    | (k, v) :: rest =>
      match applyQueueField e k v with
      | .error err => .error err
      | .ok e' => go e' rest

/-- Unmarshal a list of JSON values element by element (first error wins). -/
def decodeQueueEntries : List JsonVal → Except String (List QueueEntry)
  | [] => .ok []
  | j :: rest =>
    match decodeQueueEntry j with
    | .error e => .error e
    | .ok q =>
      match decodeQueueEntries rest with
      | .error e => .error e
      | .ok qs => .ok (q :: qs)

/-- Unmarshal a JSON value into a `[]QueueEntry` (`null` gives the nil
slice, i.e. the empty queue). -/
def decodeQueue : JsonVal → Except String (List QueueEntry)
  | .arr xs => decodeQueueEntries xs
  | .null => .ok []
  | _ => .error "cannot unmarshal into queue"

/-- The queue file on disk: absent, or holding one JSON value. -/
def FileState : Type := Option JsonVal

/-- `LoadQueue`: an absent file is the empty queue (not an error); an
existing file is unmarshalled, and fails if it is not a well-formed queue. -/
def LoadQueue : FileState → Except String (List QueueEntry)
  | none => .ok []
  | some j =>
    match decodeQueue j with
    | .error e => .error ("failed to parse queue file: " ++ e)
    | .ok q => .ok q

/-- `SaveQueue`: marshal the full queue and overwrite the file.  (Directory
creation and write errors are I/O effects outside the model.) -/
def SaveQueue (q : List QueueEntry) : FileState :=
  some (encodeQueue q)

/-- `PrependToQueue`: new entries (already newest-first) go in front of the
existing queue; with no new entries the existing queue is returned as is. -/
def PrependToQueue (existingQueue newEntries : List QueueEntry) :
    List QueueEntry :=
  if newEntries.isEmpty then existingQueue
  else newEntries ++ existingQueue

/-- `RemoveLastEntry`: drop and return the last (oldest) entry; on an empty
queue return the zero-value entry and the queue unchanged. -/
def RemoveLastEntry (queue : List QueueEntry) : QueueEntry × List QueueEntry :=
  if queue.isEmpty then (default, queue)
  else (queue.getLastD default, queue.dropLast)

/-- `TopEntry`: the first (newest) entry, if any. -/
def TopEntry (queue : List QueueEntry) : Option QueueEntry :=
  queue.head?

/-- `FilterUnprocessed`: keep only entries whose video id the database does
not already have.  The database check is the `processed` predicate (the
`ProcessedChecker` collaborator, queried once for all ids). -/
def FilterUnprocessed (entries : List QueueEntry) (processed : String → Bool) :
    List QueueEntry :=
  if entries.isEmpty then entries
  else entries.filter fun e => ¬ processed e.videoID

/- ### `AddNewStreams` -/

/-- Result of `AddNewStreams`: its return value, the queue file afterwards,
and whether the stream fetcher was invoked. -/
structure AddNewStreamsResult where
  outcome : Except String Nat
  file : FileState
  fetcherCalled : Bool

/-- `AddNewStreams`: load the existing queue; the cutoff is the queue's top
video id when the queue is non-empty, else the supplied `afterVideoID`; an
empty cutoff is an error (before any fetch).  Fetch the streams after the
cutoff (`fetchResult` is what the `StreamFetcher` collaborator would return);
nothing new means count 0 with the file untouched.  With a checker, filter
out already-processed ids (again count 0 and no write if all are filtered).
Otherwise prepend the new entries and save. -/
def AddNewStreams (file : FileState) (afterVideoID : String)
    (fetchResult : Except String (List QueueEntry))
    (checker : Option (String → Bool)) : AddNewStreamsResult :=
  match LoadQueue file with
  | .error e => ⟨.error ("failed to load queue: " ++ e), file, false⟩
  | .ok existingQueue =>
    let cutoffVideoID :=
      if existingQueue.length > 0 then (existingQueue.headD default).videoID
      else afterVideoID
    if cutoffVideoID = "" then
      ⟨.error "no cutoff video ID available", file, false⟩
    else
      match fetchResult with
      | .error e => ⟨.error ("failed to fetch streams: " ++ e), file, true⟩
      | .ok newEntries =>
        if newEntries.isEmpty then ⟨.ok 0, file, true⟩
        else
          let filtered := match checker with
            | some processed => FilterUnprocessed newEntries processed
            | none => newEntries
          if filtered.isEmpty then ⟨.ok 0, file, true⟩
          else
            let updatedQueue := PrependToQueue existingQueue filtered
            ⟨.ok filtered.length, SaveQueue updatedQueue, true⟩

/- ### The drain loop (`processQueueVideos`) -/

/-- State threaded through one drain iteration: the queue file and the
database. -/
structure DrainState where
  file : FileState
  db : DB

/-- Outcome of one drain iteration: the queue was empty and the loop ends;
or one entry was processed (carrying the entry and whether the
watermark-advance stage ran); or the iteration failed with the state it
left behind. -/
inductive DrainStepResult where
  | done (s : DrainState)
  | stepped (entry : QueueEntry) (advanceStage : Bool) (s : DrainState)
  | failed (err : String) (s : DrainState)

/-- One iteration of `processQueueVideos`: reload the queue from disk (crash
recovery); an empty queue ends the loop.  Otherwise take the last (oldest)
entry, obtain its match JSON from the OCR collaborator (`ocr` covers the
docker run, the output file read and its JSON decoding), and import it.  On
any OCR or import failure, surface the error - the queue file is untouched.
On success, persist the queue minus the processed entry; then, only when
that entry was the last one remaining (`isLastItem`, the queue's top), run
the watermark-advance stage: fetch the database watermark date and update
`last_processed` to this entry when `ShouldUpdateLastProcessed` allows it. -/
def processQueueStep (ocr : QueueEntry → Except String (List VideoJSON))
    (now : Int) (s : DrainState) : DrainStepResult :=
  match LoadQueue s.file with
  | .error e => .failed ("failed to load queue: " ++ e) s
  | .ok queue =>
    if queue.isEmpty then .done s
    else
      let entry := queue.getLastD default
      let isLastItem := queue.length = 1
      match ocr entry with
      | .error e =>
        .failed ("failed to process video " ++ entry.videoID ++ ": " ++ e) s
      | .ok videos =>
        match importMatchesFromJSON now s.db videos with
        | (db', some e) =>
          .failed ("failed to import video " ++ entry.videoID ++ ": " ++ e)
            { s with db := db' }
        | (db', none) =>
          let file' := SaveQueue queue.dropLast
          if isLastItem then
            let dbUploadDate := GetLastProcessedUploadDate db'
            if ShouldUpdateLastProcessed entry.uploadDate dbUploadDate then
              .stepped entry true
                ⟨file', UpdateLastProcessed db' entry.videoID⟩
            else
              .stepped entry true ⟨file', db'⟩
          else
            .stepped entry false ⟨file', db'⟩

/- ### The transactional view of the importer (for atomicity)

A second, finer-grained rendering of the same per-video body of
`ImportMatchesFromJSONWithConn`, in which every SQL statement can fail
(connectivity loss, constraint violation, ...).  `sched k = true` makes the
`k`-th statement of the transaction fail.  All statements operate on the
transaction's working state; `Tx.runImportVideo` adds the surrounding
`tx.Begin` / deferred `tx.Rollback` / final `tx.Commit`: the caller observes
the working state only after a successful commit, and keeps the original
database on any failure. -/

namespace Tx

/-- Execute the `k`-th statement of the transaction: fail when the schedule
says so, else apply its effect to the working state. -/
def stmt (sched : Nat → Bool) (k : Nat) (msg : String) (f : DB → DB)
    (db : DB) : Except String (DB × Nat) :=
  if sched k then .error msg else .ok (f db, k + 1)

/-- Statement that also returns a value (a `QueryRow ... Scan`). -/
def query (sched : Nat → Bool) (k : Nat) (msg : String) {α : Type}
    (f : DB → α × DB) (db : DB) : Except String (α × DB × Nat) :=
  if sched k then .error msg else
    let r := f db
    .ok (r.1, r.2, k + 1)

/-- Tournament get-or-create: the `SELECT`, then - only on no rows - the
`INSERT ... RETURNING id`. -/
def tournamentStep (sched : Nat → Bool) (name : String) (year : Int)
    (db : DB) (k : Nat) : Except String (Nat × DB × Nat) :=
  match query sched k "failed to query tournament"
      (fun db => (db.tournaments.find? (fun t => t.name = name ∧ t.year = year), db)) db with
  | .error e => .error e
  | .ok (some t, db, k) => .ok (t.id, db, k)
  | .ok (none, db, k) =>
    query sched k "failed to create tournament"
      (fun db =>
        (db.nextTournamentID,
         { db with
            tournaments := db.tournaments ++ [⟨db.nextTournamentID, name, year⟩],
            nextTournamentID := db.nextTournamentID + 1 })) db

/-- Video get-or-create: the `SELECT`; on no rows the `INSERT`; otherwise the
`UPDATE`, the participants `DELETE` and the matches `DELETE`. -/
def videoStep (sched : Nat → Bool) (youtubeID title : String)
    (uploadDate : Int) (db : DB) (k : Nat) : Except String (Nat × DB × Nat) :=
  match query sched k "failed to query video"
      (fun db => (db.videos.find? (fun r => r.youtubeID = youtubeID), db)) db with
  | .error e => .error e
  | .ok (none, db, k) =>
    query sched k "failed to create video"
      (fun db =>
        (db.nextVideoID,
         { db with
            videos := db.videos ++ [⟨db.nextVideoID, youtubeID, title, uploadDate, false⟩],
            nextVideoID := db.nextVideoID + 1 })) db
  | .ok (some r, db, k) =>
    let vid := r.id
    match stmt sched k "failed to update video"
        (fun db => { db with
          videos := db.videos.map fun (w : VideoRow) =>
            if w.id = vid then { w with title := title, uploadDate := uploadDate } else w }) db with
    | .error e => .error e
    | .ok (db, k) =>
      match stmt sched k "failed to delete old match participants"
          (fun db => { db with
            participants := db.participants.filter fun p =>
              ¬ db.matchRows.any fun m => m.id = p.matchID ∧ m.videoID = vid }) db with
      | .error e => .error e
      | .ok (db, k) =>
        match stmt sched k "failed to delete old matches"
            (fun db => { db with
              matchRows := db.matchRows.filter fun m => ¬ m.videoID = vid }) db with
        | .error e => .error e
        | .ok (db, k) => .ok (vid, db, k)

/-- Player get-or-create followed by the participant `INSERT`, for each team
member in order. -/
def teamStep (sched : Nat → Bool) (matchID : Nat) (side : String) :
    List String → DB → Nat → Except String (DB × Nat)
  | [], db, k => .ok (db, k)
  | name :: rest, db, k =>
    match query sched k ("failed to handle player " ++ name)
        (fun db => (db.players.find? (fun p => p.name = name), db)) db with
    | .error e => .error e
    | .ok (found, db, k) =>
      let afterPlayer : Except String (Nat × DB × Nat) :=
        match found with
        | some p => .ok (p.id, db, k)
        | none =>
          query sched k ("failed to handle player " ++ name)
            (fun db =>
              (db.nextPlayerID,
               { db with
                  players := db.players ++ [⟨db.nextPlayerID, name⟩],
                  nextPlayerID := db.nextPlayerID + 1 })) db
      match afterPlayer with
      | .error e => .error e
      | .ok (pid, db, k) =>
        match stmt sched k ("failed to link player " ++ name)
            (fun db => { db with
              participants := db.participants ++ [⟨matchID, pid, side⟩] }) db with
        | .error e => .error e
        | .ok (db, k) => teamStep sched matchID side rest db k

/-- The matches loop: insert the match row, then side A, then side B. -/
def matchesStep (sched : Nat → Bool) (tournamentID videoID : Nat)
    (uploadDate : Int) : List MatchJSON → DB → Nat → Except String (DB × Nat)
  | [], db, k => .ok (db, k)
  | m :: rest, db, k =>
    let teamA := parsePlayerName m.player1
    let teamB := parsePlayerName m.player2
    let isDoubles := teamA.length > 1 ∨ teamB.length > 1
    let matchTime := uploadDate + m.timestamp
    match query sched k "failed to create match"
        (fun db =>
          (db.nextMatchID,
           { db with
              matchRows := db.matchRows ++
                [⟨db.nextMatchID, tournamentID, matchTime, isDoubles, videoID⟩],
              nextMatchID := db.nextMatchID + 1 })) db with
    | .error e => .error e
    | .ok (mid, db, k) =>
      match teamStep sched mid "A" teamA db k with
      | .error e => .error e
      | .ok (db, k) =>
        match teamStep sched mid "B" teamB db k with
        | .error e => .error e
        | .ok (db, k) => matchesStep sched tournamentID videoID uploadDate rest db k

/-- The two watermark `UPDATE`s, issued only for the file's first video. -/
def watermarkStep (sched : Nat → Bool) (isNewest : Bool) (videoID : Nat)
    (db : DB) (k : Nat) : Except String (DB × Nat) :=
  if isNewest then
    match stmt sched k "failed to clear last_processed flags"
        (fun db => { db with
          videos := db.videos.map fun (r : VideoRow) =>
            { r with lastProcessed := false } }) db with
    | .error e => .error e
    | .ok (db, k) =>
      stmt sched k "failed to set last_processed"
        (fun db => { db with
          videos := db.videos.map fun (r : VideoRow) =>
            if r.id = videoID then { r with lastProcessed := true } else r }) db
  else .ok (db, k)

/-- The whole transaction body, statement by statement. -/
def body (sched : Nat → Bool) (now : Int) (isNewest : Bool) (v : VideoJSON)
    (name : String) (year : Int) (db : DB) : Except String (DB × Nat) :=
  match tournamentStep sched name year db 0 with
  | .error e => .error e
  | .ok (tid, db, k) =>
    let uploadDate := match parseUploadDate v.uploadDate with
      | some t => t
      | none => now
    match videoStep sched v.videoID v.videoTitle uploadDate db k with
    | .error e => .error e
    | .ok (vid, db, k) =>
      match matchesStep sched tid vid uploadDate v.matchEntries db k with
      | .error e => .error e
      | .ok (db, k) => watermarkStep sched isNewest vid db k

/-- The per-video import up to and including `tx.Commit`: parse the title
(before `tx.Begin`), run the body on the working state, and let a failing
`tx.Commit` fail the transaction too.  `.ok` carries the committed state. -/
def txResult (sched : Nat → Bool) (now : Int) (isNewest : Bool)
    (db : DB) (v : VideoJSON) : Except String DB :=
  match parseTournamentFromTitle v.videoTitle with
  | .error e => .error ("failed to parse tournament from title: " ++ e)
  | .ok tn =>
    match body sched now isNewest v tn.1 tn.2 db with
    | .error e => .error e
    | .ok (db', k) =>
      if sched k then .error "failed to commit"
      else .ok db'

/-- What the caller observes: the committed state on success; on any error
the deferred `tx.Rollback` leaves it with the original database and the
surfaced error. -/
def runImportVideo (sched : Nat → Bool) (now : Int) (isNewest : Bool)
    (db : DB) (v : VideoJSON) : DB × Option String :=
  match txResult sched now isNewest db v with
  | .error e => (db, some e)
  | .ok db' => (db', none)

end Tx

/- ### Helper lemmas -/

/-- `goCharListLe` agrees with the lexicographic order on char lists. -/
theorem goCharListLe_iff : ∀ x y : List Char, goCharListLe x y = true ↔ x ≤ y := by
  intro x
  induction x with
  | nil => intro y; simp [goCharListLe, List.nil_le]
  | cons a as ih =>
    intro y
    cases y with
    | nil =>
      simp only [goCharListLe, Bool.false_eq_true, false_iff]
      intro h
      rcases lt_or_eq_of_le h with h | h
      · exact (List.Lex.not_nil_right _ _ h)
      · simp at h
    | cons b bs =>
      by_cases hab : a = b
      · subst hab
        rw [show goCharListLe (a :: as) (a :: bs) = goCharListLe as bs by
          simp [goCharListLe], ih bs, le_iff_lt_or_eq, le_iff_lt_or_eq]
        constructor
        · rintro (h | h)
          · exact Or.inl (List.Lex.cons h)
          · exact Or.inr (by rw [h])
        · rintro (h | h)
          · exact Or.inl ((List.Lex.cons_iff).mp h)
          · injection h with _ h2
            exact Or.inr h2
      · simp only [goCharListLe, if_neg hab, decide_eq_true_eq, le_iff_lt_or_eq]
        constructor
        · intro h
          exact Or.inl (List.Lex.rel h)
        · rintro (h | h)
          · cases h with
            | cons h => exact absurd rfl hab
            | rel h => exact h
          · injection h with h1 _
            exact absurd h1 hab

/-- `goStringLe` agrees with the lexicographic order on strings. -/
theorem goStringLe_iff (a b : String) : goStringLe a b = true ↔ a ≤ b := by
  rw [goStringLe, goCharListLe_iff, String.le_iff_toList_le]
-- appended experimentally
/-- Claim C5: `ShouldAdvanceWatermark` (implemented as
`ShouldUpdateLastProcessed`) returns true iff the current date is empty or
the candidate date is lexicographically `>=` the current date; in particular
it is true on `(d, "")` for every `d`, true on `("20260216","20260215")`,
false on `("20260214","20260215")`, true on `("20260215","20260215")`. -/
theorem c5_should_update_last_processed :
    (∀ c d : String, ShouldUpdateLastProcessed c d = true ↔ d = "" ∨ d ≤ c)
    ∧ (∀ d : String, ShouldUpdateLastProcessed d "" = true)
    ∧ ShouldUpdateLastProcessed "20260216" "20260215" = true
    ∧ ShouldUpdateLastProcessed "20260214" "20260215" = false
    ∧ ShouldUpdateLastProcessed "20260215" "20260215" = true := by
  refine ⟨?_, ?_, by decide, by decide, by decide⟩
  · intro c d
    unfold ShouldUpdateLastProcessed
    by_cases hd : d = ""
    · simp [hd]
    · simp only [if_neg hd, goStringLe_iff]
      tauto
  · intro d
    rfl

/-- The scan loop is the first-qualifying-segment rule of the amended claim. -/
theorem scanTournamentParts_eq_findSome (title : String) :
    ∀ ps : List String,
      scanTournamentParts title ps =
        match ps.findSome? amendedSegmentTournament with
        | some r => .ok r
        | none => .error ("could not find tournament with year in title: " ++ title) := by
  intro ps
  induction ps with
  | nil => rfl
  | cons p rest ih =>
    rw [scanTournamentParts, List.findSome?_cons]
    by_cases h1 : (goFields (goTrim p)).length < 2
    · have hseg : amendedSegmentTournament p = none := by
        unfold amendedSegmentTournament
        rw [if_pos h1]
      rw [hseg, if_pos h1]
      exact ih
    · rw [if_neg h1]
      cases h2 : goAtoi ((goFields (goTrim p)).getLastD "") with
      | none =>
        have hseg : amendedSegmentTournament p = none := by
          unfold amendedSegmentTournament
          rw [if_neg h1, h2]
        rw [hseg]
        exact ih
      | some year =>
        show (if year < 2020 ∨ year > 2100 then scanTournamentParts title rest
            else Except.ok (goToLower (String.intercalate " " (goFields (goTrim p)).dropLast), year)) = _
        by_cases h3 : year < 2020 ∨ year > 2100
        · have hseg : amendedSegmentTournament p = none := by
            unfold amendedSegmentTournament
            rw [if_neg h1, h2]
            show (if year < 2020 ∨ year > 2100 then none else _) = none
            rw [if_pos h3]
          rw [hseg, if_pos h3]
          exact ih
        · have hseg : amendedSegmentTournament p =
              some (goToLower (String.intercalate " " (goFields (goTrim p)).dropLast), year) := by
            unfold amendedSegmentTournament
            rw [if_neg h1, h2]
            show (if year < 2020 ∨ year > 2100 then none else _) = _
            rw [if_neg h3]
          rw [hseg, if_neg h3]

/-- Claim C4 (counterexample): on the title `"A | B | 2026"` the scan as the
claim words it accepts the one-word segment `"2026"` (empty tournament name,
year 2026), but the code skips segments with fewer than two words and fails. -/
theorem c4_counterexample :
    parseTournamentFromTitleClaim "A | B | 2026" = .ok ("", 2026)
    ∧ parseTournamentFromTitle "A | B | 2026" =
        .error "could not find tournament with year in title: A | B | 2026" := by
  constructor
  · rfl
  · rfl

/-- Claim C4 (amended): title parsing follows the forward scan, where a
segment qualifies only if it has at least two whitespace-delimited words and
its last word parses as an integer in `[2020, 2100]`; the Chennai example
yields tournament `"wtt star contender chennai"` and year `2026`. -/
theorem c4_title_parse :
    (∀ title, parseTournamentFromTitle title = parseTournamentFromTitleAmended title)
    ∧ parseTournamentFromTitle
        "LIVE! | Day 3 | WTT Star Contender Chennai 2026 | Singles QF & Doubles F" =
      .ok ("wtt star contender chennai", 2026) := by
  constructor
  · intro title
    unfold parseTournamentFromTitle parseTournamentFromTitleAmended
    by_cases h : (goSplit (fun c => c = '|') title).length < 3
    · simp only [if_pos h]
    · simp only [if_neg h, scanTournamentParts_eq_findSome]
  · rfl

/-- Claim C2: importing one video's match list is atomic — whatever
statement of the transaction fails (any schedule `sched`), when
`Tx.runImportVideo` surfaces an error the database the caller observes is
exactly the database from before the import; no partial rows persist. -/
theorem c2_import_atomic (sched : Nat → Bool) (now : Int) (isNewest : Bool)
    (db : DB) (v : VideoJSON) (e : String)
    (h : (Tx.runImportVideo sched now isNewest db v).2 = some e) :
    (Tx.runImportVideo sched now isNewest db v).1 = db := by
  unfold Tx.runImportVideo at h ⊢
  cases hr : Tx.txResult sched now isNewest db v with
  | error e' =>
    rfl
  | ok db2 =>
    rw [hr] at h
    exact Option.noConfusion h

/-- Concrete video used by several witnesses. -/
def wVideo : VideoJSON :=
  { videoID := "VID0", videoTitle := "A | B | WTT Foo 2026",
    uploadDate := "20260215", matchEntries := [⟨10, "X", "Y/Z"⟩] }

/-- Witness for C2: with the schedule that fails the very first statement,
the import on the empty database reports an error and leaves the database
empty. -/
theorem c2_import_atomic_witness :
    (Tx.runImportVideo (fun _ => true) 0 true emptyDB wVideo).1 = emptyDB :=
  c2_import_atomic (fun _ => true) 0 true emptyDB wVideo
    "failed to query tournament" rfl

/-- Unmarshalling the marshalled form of one entry restores the entry. -/
theorem decodeQueueEntry_encodeQueueEntry (e : QueueEntry) :
    decodeQueueEntry (encodeQueueEntry e) = .ok e := by
  cases e
  rfl

/-- Unmarshalling the marshalled form of a queue restores the queue. -/
theorem loadQueue_saveQueue (q : List QueueEntry) :
    LoadQueue (SaveQueue q) = .ok q := by
  have h : ∀ q : List QueueEntry,
      decodeQueueEntries (q.map encodeQueueEntry) = .ok q := by
    intro q
    induction q with
    | nil => rfl
    | cons e rest ih =>
      rw [List.map_cons, decodeQueueEntries, decodeQueueEntry_encodeQueueEntry, ih]
  show (match decodeQueue (encodeQueue q) with
    | .error e => Except.error ("failed to parse queue file: " ++ e)
    | .ok q => Except.ok q) = .ok q
  rw [show decodeQueue (encodeQueue q) = decodeQueueEntries (q.map encodeQueueEntry) from rfl, h]

/-- Claim C9: queue persistence round-trips — for every queue, empty
included, saving and then loading returns the same queue, every entry's
`video_id`, `video_title` and `upload_date` and the entry order intact. -/
theorem c9_queue_roundtrip :
    (∀ q : List QueueEntry, LoadQueue (SaveQueue q) = .ok q)
    ∧ LoadQueue (SaveQueue []) = .ok ([] : List QueueEntry) :=
  ⟨loadQueue_saveQueue, loadQueue_saveQueue []⟩

/-- Claim C10: with an empty (or absent) queue at the queue path and an
empty `afterVideoID`, `AddNewStreams` fails with "no cutoff video ID
available", does not invoke the fetcher, and leaves the queue file exactly
as it was. -/
theorem c10_add_new_streams_no_cutoff (file : FileState)
    (fetchResult : Except String (List QueueEntry))
    (checker : Option (String → Bool))
    (h : LoadQueue file = .ok []) :
    AddNewStreams file "" fetchResult checker =
      ⟨.error "no cutoff video ID available", file, false⟩ := by
  unfold AddNewStreams
  rw [h]
  rfl

/-- Witness for C10: an absent queue file, with a fetcher that would have
returned one new stream. -/
theorem c10_add_new_streams_no_cutoff_witness :
    AddNewStreams none "" (.ok [⟨"A", "Video A", "20260216"⟩]) none =
      ⟨.error "no cutoff video ID available", none, false⟩ :=
  c10_add_new_streams_no_cutoff none (.ok [⟨"A", "Video A", "20260216"⟩]) none rfl

/-- On any failing drain iteration the queue file is untouched. -/
theorem processQueueStep_failed_file (ocr : QueueEntry → Except String (List VideoJSON))
    (now : Int) (s : DrainState) (e : String) (s' : DrainState)
    (h : processQueueStep ocr now s = .failed e s') : s'.file = s.file := by
  unfold processQueueStep at h
  split at h
  · cases h
    rfl
  · split at h
    · cases h
    · simp only [] at h
      split at h
      · cases h
        rfl
      · split at h
        · cases h
          rfl
        · split at h
          · split at h
            · cases h
            · cases h
          · cases h

/-- On any successful drain iteration: the queue loaded from disk was
non-empty, the processed entry is its last (oldest) element, and the file is
rewritten to that queue minus the processed entry. -/
theorem processQueueStep_stepped_file (ocr : QueueEntry → Except String (List VideoJSON))
    (now : Int) (s : DrainState) (entry : QueueEntry) (adv : Bool) (s' : DrainState)
    (h : processQueueStep ocr now s = .stepped entry adv s') :
    ∃ q, LoadQueue s.file = .ok q ∧ q ≠ [] ∧ entry = q.getLastD default ∧
      s'.file = SaveQueue q.dropLast := by
  unfold processQueueStep at h
  split at h
  · cases h
  · rename_i queue heq
    split at h
    · cases h
    · rename_i hne
      simp only [] at h
      split at h
      · cases h
      · split at h
        · cases h
        · refine ⟨queue, heq, by simpa using hne, ?_⟩
          split at h
          · split at h
            · cases h
              exact ⟨rfl, rfl⟩
            · cases h
              exact ⟨rfl, rfl⟩
          · cases h
            exact ⟨rfl, rfl⟩

/-- Entries of the three-entry drain scenario. -/
def qA : QueueEntry := ⟨"A", "Video A", "20260216"⟩

/-- Second entry of the three-entry drain scenario. -/
def qB : QueueEntry := ⟨"B", "Video B", "20260215"⟩

/-- Oldest entry of the three-entry drain scenario. -/
def qC : QueueEntry := ⟨"C", "Video C", "20260214"⟩

/-- An OCR collaborator that succeeds on every entry with one importable
video and no matches. -/
def drainOcr3 (e : QueueEntry) : Except String (List VideoJSON) :=
  .ok [⟨e.videoID, "A | B | WTT Foo 2026", e.uploadDate, []⟩]

/-- The state after the first drain iteration of the three-entry scenario:
two entries persisted, the oldest one imported. -/
def drainAfterC3 : DrainState :=
  ⟨SaveQueue [qA, qB],
   (importMatchesFromJSON 0 emptyDB
     [⟨"C", "A | B | WTT Foo 2026", "20260214", []⟩]).1⟩

/-- Claim C6: queue draining is crash-safe per entry — each iteration
processes the last (oldest) entry, and only after its import succeeds is the
on-disk queue rewritten to the prior queue minus that entry; on any OCR
or import failure the queue file is unchanged and the error surfaced.  For the
three-entry queue, one successful iteration persists exactly the remaining
two entries, and reloading returns that same two-entry state. -/
theorem c6_drain_crash_safe :
    (∀ ocr now s e s', processQueueStep ocr now s = .failed e s' →
        s'.file = s.file)
    ∧ (∀ ocr now s entry adv s', processQueueStep ocr now s = .stepped entry adv s' →
        ∃ q, LoadQueue s.file = .ok q ∧ q ≠ [] ∧ entry = q.getLastD default ∧
          s'.file = SaveQueue q.dropLast)
    ∧ processQueueStep drainOcr3 0 ⟨SaveQueue [qA, qB, qC], emptyDB⟩ =
        .stepped qC false drainAfterC3
    ∧ LoadQueue drainAfterC3.file = .ok [qA, qB] :=
  ⟨processQueueStep_failed_file, processQueueStep_stepped_file, rfl,
   loadQueue_saveQueue [qA, qB]⟩

/-- Witness for C6: the stepped-iteration part of the claim applied to the
concrete three-entry scenario. -/
theorem c6_drain_crash_safe_witness :
    ∃ q, LoadQueue (SaveQueue [qA, qB, qC]) = .ok q ∧ q ≠ [] ∧
      qC = q.getLastD default ∧ drainAfterC3.file = SaveQueue q.dropLast :=
  c6_drain_crash_safe.2.1 drainOcr3 0 ⟨SaveQueue [qA, qB, qC], emptyDB⟩ qC false
    drainAfterC3 rfl

/-- On any successful drain iteration, the watermark-advance stage ran
exactly when the loaded queue had one entry left. -/
theorem processQueueStep_stepped_adv (ocr : QueueEntry → Except String (List VideoJSON))
    (now : Int) (s : DrainState) (entry : QueueEntry) (adv : Bool) (s' : DrainState)
    (h : processQueueStep ocr now s = .stepped entry adv s') :
    ∃ q, LoadQueue s.file = .ok q ∧ (adv = true ↔ q.length = 1) := by
  unfold processQueueStep at h
  split at h
  · cases h
  · rename_i queue heq
    split at h
    · cases h
    · simp only [] at h
      split at h
      · cases h
      · split at h
        · cases h
        · refine ⟨queue, heq, ?_⟩
          split at h
          · rename_i hlast
            split at h
            · cases h
              simp [hlast]
            · cases h
              simp [hlast]
          · rename_i hlast
            cases h
            simp [hlast]

/-- Claim C7: during a drain of an original queue `q0` (the on-disk queue is
always `q0.take m`, the unprocessed remainder: each successful iteration
rewrites `q0.take m` to `q0.take (m-1)`, as the last conjunct shows), the
watermark-advance stage runs in an iteration exactly when one entry remains
- equivalently, exactly when the entry just removed is `q0`'s head, the
original top/newest entry; for every other entry the stage does not run. -/
theorem c7_advance_gating (q0 : List QueueEntry) (m : Nat)
    (ocr : QueueEntry → Except String (List VideoJSON)) (now : Int)
    (s : DrainState) (entry : QueueEntry) (adv : Bool) (s' : DrainState)
    (hfile : s.file = SaveQueue (q0.take m)) (h1 : 1 ≤ m) (h2 : m ≤ q0.length)
    (hstep : processQueueStep ocr now s = .stepped entry adv s') :
    (adv = true ↔ m = 1) ∧ (m = 1 → entry = q0.headD default) ∧
      s'.file = SaveQueue (q0.take (m - 1)) := by
  have hload : LoadQueue s.file = .ok (q0.take m) := by
    rw [hfile]
    exact loadQueue_saveQueue _
  obtain ⟨q, hq, hne, hent, hfile'⟩ :=
    processQueueStep_stepped_file ocr now s entry adv s' hstep
  obtain ⟨q2, hq2, hadv⟩ :=
    processQueueStep_stepped_adv ocr now s entry adv s' hstep
  rw [hload] at hq hq2
  injection hq with hq
  injection hq2 with hq2
  subst hq
  subst hq2
  have hlen : (q0.take m).length = m := by
    rw [List.length_take]
    exact min_eq_left h2
  refine ⟨by rw [hadv, hlen], ?_, ?_⟩
  · intro hm1
    subst hm1
    rw [hent]
    cases q0 with
    | nil => simp at h2
    | cons a t => simp
  · rw [hfile']
    congr 1
    rw [List.dropLast_eq_take, hlen, List.take_take]
    congr 1
    exact min_eq_left (Nat.sub_le m 1)

/-- Witness for C7: the one-entry drain state of the three-entry scenario's
original queue — the processed entry is the original top `qA` and the
advance stage runs. -/
theorem c7_advance_gating_witness :
    ((true : Bool) = true ↔ (1 : Nat) = 1) ∧
      ((1 : Nat) = 1 → qA = [qA, qB, qC].headD default) ∧
      (DrainState.mk (SaveQueue ([qA, qB, qC].take 0))
        (UpdateLastProcessed
          (importMatchesFromJSON 0 emptyDB
            [⟨"A", "A | B | WTT Foo 2026", "20260216", []⟩]).1 "A")).file =
        SaveQueue ([qA, qB, qC].take (1 - 1)) :=
  c7_advance_gating [qA, qB, qC] 1 drainOcr3 0
    ⟨SaveQueue ([qA, qB, qC].take 1), emptyDB⟩ qA true
    (DrainState.mk (SaveQueue ([qA, qB, qC].take 0))
      (UpdateLastProcessed
        (importMatchesFromJSON 0 emptyDB
          [⟨"A", "A | B | WTT Foo 2026", "20260216", []⟩]).1 "A"))
    rfl (by decide) (by decide) rfl

/- ### Preservation lemmas for the import stages -/

/-- Tournament get-or-create does not touch the videos table. -/
theorem getOrCreateTournament_videos (n : String) (y : Int) (db : DB) :
    (getOrCreateTournament n y db).2.videos = db.videos := by
  unfold getOrCreateTournament
  cases db.tournaments.find? (fun t => t.name = n ∧ t.year = y) <;> rfl

/-- Player get-or-create does not touch the videos table. -/
theorem getOrCreatePlayer_videos (n : String) (db : DB) :
    (getOrCreatePlayer n db).2.videos = db.videos := by
  unfold getOrCreatePlayer
  cases db.players.find? (fun p => p.name = n) <;> rfl

/-- Inserting a team's participants does not touch the videos table. -/
theorem insertTeam_videos (mid : Nat) (side : String) :
    ∀ (names : List String) (db : DB),
      (insertTeam mid side names db).videos = db.videos := by
  intro names
  induction names with
  | nil => intro db; rfl
  | cons n rest ih =>
    intro db
    show (insertTeam mid side rest _).videos = _
    rw [ih]
    exact getOrCreatePlayer_videos n db

/-- Inserting the matches does not touch the videos table. -/
theorem insertMatches_videos (tid vid : Nat) (u : Int) :
    ∀ (ms : List (Int × String × String)) (db : DB),
      (insertMatches tid vid u ms db).videos = db.videos := by
  intro ms
  induction ms with
  | nil => intro db; rfl
  | cons m rest ih =>
    intro db
    show (insertMatches tid vid u rest _).videos = _
    rw [ih, insertTeam_videos, insertTeam_videos]

/-- The video step leaves the video id column either unchanged (update in
place) or extended by the fresh id `nextVideoID` (insert). -/
theorem getOrCreateVideo_ids (y t : String) (u : Int) (db : DB) :
    (getOrCreateVideo y t u db).2.videos.map VideoRow.id = db.videos.map VideoRow.id
    ∨ (getOrCreateVideo y t u db).2.videos.map VideoRow.id =
        db.videos.map VideoRow.id ++ [db.nextVideoID] := by
  unfold getOrCreateVideo
  cases h : db.videos.find? (fun r => r.youtubeID = y) with
  | none =>
    right
    simp
  | some r =>
    left
    show ((db.videos.map fun (w : VideoRow) =>
      if w.id = r.id then { w with title := t, uploadDate := u } else w).map VideoRow.id) = _
    rw [List.map_map]
    apply List.map_congr_left
    intro w _
    show VideoRow.id (if w.id = r.id then { w with title := t, uploadDate := u } else w) = w.id
    by_cases hw : w.id = r.id
    · rw [if_pos hw]
    · rw [if_neg hw]

/-- The returned video id is a row of the resulting videos table. -/
theorem getOrCreateVideo_id_mem (y t : String) (u : Int) (db : DB) :
    (getOrCreateVideo y t u db).1 ∈
      (getOrCreateVideo y t u db).2.videos.map VideoRow.id := by
  unfold getOrCreateVideo
  cases h : db.videos.find? (fun r => r.youtubeID = y) with
  | none => simp
  | some r =>
    have hmem : r ∈ db.videos := List.mem_of_find?_eq_some h
    show r.id ∈ (db.videos.map fun (w : VideoRow) =>
      if w.id = r.id then { w with title := t, uploadDate := u } else w).map VideoRow.id
    rw [List.map_map]
    refine List.mem_map.mpr ⟨r, hmem, ?_⟩
    show VideoRow.id (if r.id = r.id then { r with title := t, uploadDate := u } else r) = r.id
    rw [if_pos rfl]

/-- The video step does not change how many rows hold the watermark. -/
theorem getOrCreateVideo_watermark (y t : String) (u : Int) (db : DB) :
    ((getOrCreateVideo y t u db).2.videos.filter fun r => r.lastProcessed).length =
      (db.videos.filter fun r => r.lastProcessed).length := by
  unfold getOrCreateVideo
  cases h : db.videos.find? (fun r => r.youtubeID = y) with
  | none =>
    show ((db.videos ++ [(⟨db.nextVideoID, y, t, u, false⟩ : VideoRow)]).filter
      fun r => r.lastProcessed).length = _
    rw [List.filter_append]
    simp
  | some r =>
    show (((db.videos.map fun (w : VideoRow) =>
        if w.id = r.id then { w with title := t, uploadDate := u } else w).filter
        fun r => r.lastProcessed).length) = _
    rw [← List.countP_eq_length_filter, ← List.countP_eq_length_filter, List.countP_map]
    apply List.countP_congr
    intro w _
    show ((fun (x : VideoRow) => x.lastProcessed)
        (if w.id = r.id then { w with title := t, uploadDate := u } else w) = true
      ↔ w.lastProcessed = true)
    by_cases hw : w.id = r.id
    · rw [if_pos hw]
    · rw [if_neg hw]

/-- After `setWatermarkRow`, the rows holding the watermark are exactly the
rows whose id is the target id. -/
theorem setWatermarkRow_watermark (vid : Nat) (db : DB) :
    watermarkCount (setWatermarkRow vid db) =
      (db.videos.map VideoRow.id).count vid := by
  unfold watermarkCount setWatermarkRow
  show ((((db.videos.map fun (r : VideoRow) => { r with lastProcessed := false }).map
      fun (r : VideoRow) =>
        if r.id = vid then { r with lastProcessed := true } else r).filter
      fun r => r.lastProcessed).length) = _
  rw [List.map_map, ← List.countP_eq_length_filter, List.countP_map, List.count,
    List.countP_map]
  apply List.countP_congr
  intro w _
  show ((fun (x : VideoRow) => x.lastProcessed)
      (if ({ w with lastProcessed := false } : VideoRow).id = vid then
        { ({ w with lastProcessed := false } : VideoRow) with lastProcessed := true }
      else { w with lastProcessed := false }) = true
    ↔ (w.id == vid) = true)
  by_cases hw : w.id = vid
  · rw [if_pos hw]
    simp [hw]
  · rw [if_neg hw]
    simp [hw]

/-- Tournament get-or-create does not touch the video id sequence. -/
theorem getOrCreateTournament_nextVideoID (n : String) (y : Int) (db : DB) :
    (getOrCreateTournament n y db).2.nextVideoID = db.nextVideoID := by
  unfold getOrCreateTournament
  cases db.tournaments.find? (fun t => t.name = n ∧ t.year = y) <;> rfl

/-- After `UpdateLastProcessed`, the rows holding the watermark are exactly
the rows whose youtube id is the target. -/
theorem UpdateLastProcessed_watermark (db : DB) (y : String) :
    watermarkCount (UpdateLastProcessed db y) =
      (db.videos.map VideoRow.youtubeID).count y := by
  unfold watermarkCount UpdateLastProcessed
  show ((((db.videos.map fun (r : VideoRow) => { r with lastProcessed := false }).map
      fun (r : VideoRow) =>
        if r.youtubeID = y then { r with lastProcessed := true } else r).filter
      fun r => r.lastProcessed).length) = _
  rw [List.map_map, ← List.countP_eq_length_filter, List.countP_map, List.count,
    List.countP_map]
  apply List.countP_congr
  intro w _
  show ((fun (x : VideoRow) => x.lastProcessed)
      (if ({ w with lastProcessed := false } : VideoRow).youtubeID = y then
        { ({ w with lastProcessed := false } : VideoRow) with lastProcessed := true }
      else { w with lastProcessed := false }) = true
    ↔ (w.youtubeID == y) = true)
  by_cases hw : w.youtubeID = y
  · rw [if_pos hw]
    simp [hw]
  · rw [if_neg hw]
    simp [hw]

/-- With `isNewest = false`, the import stages leave the number of watermark
rows unchanged. -/
theorem importCore_watermark_false (tid : Nat) (yid t : String) (u : Int)
    (ms : List (Int × String × String)) (db' : DB) :
    watermarkCount (insertMatches tid (getOrCreateVideo yid t u db').1 u ms
        (getOrCreateVideo yid t u db').2) =
      (db'.videos.filter fun r => r.lastProcessed).length := by
  unfold watermarkCount
  rw [insertMatches_videos, getOrCreateVideo_watermark]

/-- With `isNewest = true`, after the clear-then-set watermark update exactly
one row holds the watermark (the target video's row, which exists and whose
id is unique). -/
theorem importCore_watermark_true (tid : Nat) (yid t : String) (u : Int)
    (ms : List (Int × String × String)) (db' : DB)
    (hlt : ∀ r ∈ db'.videos, r.id < db'.nextVideoID)
    (hnd : (db'.videos.map VideoRow.id).Nodup) :
    watermarkCount (setWatermarkRow (getOrCreateVideo yid t u db').1
      (insertMatches tid (getOrCreateVideo yid t u db').1 u ms
        (getOrCreateVideo yid t u db').2)) = 1 := by
  have hfresh : db'.nextVideoID ∉ db'.videos.map VideoRow.id := by
    intro hmem
    obtain ⟨r, hr, hid⟩ := List.mem_map.mp hmem
    exact absurd hid (Nat.ne_of_lt (hlt r hr))
  have hnodup : ((getOrCreateVideo yid t u db').2.videos.map VideoRow.id).Nodup := by
    rcases getOrCreateVideo_ids yid t u db' with hsame | happ
    · rw [hsame]
      exact hnd
    · rw [happ, List.nodup_append]
      exact ⟨hnd, List.nodup_singleton _, by simpa using fun hmem => hfresh hmem⟩
  have hmem := getOrCreateVideo_id_mem yid t u db'
  rw [setWatermarkRow_watermark, insertMatches_videos]
  refine le_antisymm ((List.nodup_iff_count_le_one.mp hnodup) _) ?_
  exact List.count_pos_iff.mpr hmem

/-- Claim C8: at most one row holds `last_processed = true` at any commit
point.  A committed import preserves the invariant, and when it is
the import of a file's first video (the one that runs the clear-then-set
watermark update inside the same transaction) exactly one row holds the
watermark afterwards.  The spec-modelled `SetWatermark` / `UpdateLastProcessed`
(clear every row, then set the row matching the youtube id, unique by
schema) preserves the invariant as well. -/
theorem c8_watermark_exclusive :
    (∀ (now : Int) (isNewest : Bool) (db : DB) (v : VideoJSON) (db1 : DB),
        WF db → importVideo now isNewest db v = .ok db1 →
        watermarkCount db ≤ 1 →
        watermarkCount db1 ≤ 1 ∧ (isNewest = true → watermarkCount db1 = 1))
    ∧ (∀ (db : DB) (y : String), (db.videos.map VideoRow.youtubeID).Nodup →
        watermarkCount db ≤ 1 →
        watermarkCount (UpdateLastProcessed db y) ≤ 1) := by
  constructor
  · intro now isNewest db v db1 hwf himp hcount
    unfold importVideo at himp
    revert himp
    cases hp : parseTournamentFromTitle v.videoTitle with
    | error e => intro himp; cases himp
    | ok tn =>
      intro himp
      injection himp with hdb1
      have hAvids : (getOrCreateTournament tn.1 tn.2 db).2.videos = db.videos :=
        getOrCreateTournament_videos tn.1 tn.2 db
      have hAnext : (getOrCreateTournament tn.1 tn.2 db).2.nextVideoID = db.nextVideoID :=
        getOrCreateTournament_nextVideoID tn.1 tn.2 db
      cases isNewest with
      | false =>
        refine ⟨?_, by intro hfalse; cases hfalse⟩
        rw [← hdb1]
        show watermarkCount (insertMatches _ _ _ _ _) ≤ 1
        rw [importCore_watermark_false, hAvids]
        exact hcount
      | true =>
        have hone : watermarkCount db1 = 1 := by
          rw [← hdb1]
          show watermarkCount (setWatermarkRow _ (insertMatches _ _ _ _ _)) = 1
          apply importCore_watermark_true
          · rw [hAvids, hAnext]
            exact hwf.videoIdsLt
          · rw [hAvids]
            exact hwf.videoIdsNodup
        exact ⟨le_of_eq hone, fun _ => hone⟩
  · intro db y hnd hcount
    rw [UpdateLastProcessed_watermark]
    exact (List.nodup_iff_count_le_one.mp hnd) y

/-- The committed state of the witness import (`wVideo` into the empty
database as the file's first video). -/
def c8ImportResult : DB :=
  match importVideo 0 true emptyDB wVideo with
  | .ok d => d
  | .error _ => emptyDB

/-- Witness for C8: that import leaves exactly one watermark row. -/
theorem c8_watermark_exclusive_witness :
    watermarkCount c8ImportResult ≤ 1 ∧
      (true = true → watermarkCount c8ImportResult = 1) :=
  c8_watermark_exclusive.1 0 true emptyDB wVideo c8ImportResult
    (by constructor <;> simp [emptyDB]) rfl (by decide)

/-- Database before the C1 scenario: a single video `W` holding the
watermark, uploaded 2026-02-15. -/
def c1DB : DB :=
  { tournaments := [], players := [],
    videos := [⟨0, "W", "Old Watermark", daysFromCivil 2026 2 15 * 86400, true⟩],
    matchRows := [], participants := [],
    nextTournamentID := 0, nextPlayerID := 0, nextVideoID := 1, nextMatchID := 0 }

/-- The queue entry of the C1 scenario: a backfilled video five days older
than the watermark. -/
def c1Entry : QueueEntry := ⟨"E1", "LIVE! | Day 1 | WTT Foo 2026 | F", "20260210"⟩

/-- OCR collaborator of the C1 scenario: one video, one match. -/
def c1Ocr (e : QueueEntry) : Except String (List VideoJSON) :=
  .ok [⟨e.videoID, e.videoTitle, e.uploadDate, [⟨5, "X", "Y"⟩]⟩]

/-- Claim C1 (the code violates it): before the drain the watermark's upload
date is `20260215`; draining the single queued entry `E1` (upload date
`20260210`, strictly older) succeeds and afterwards the watermark's upload
date is `20260210` — it moved backward.  `ImportMatchesFromJSONWithConn`
unconditionally clears and sets `last_processed` for the first video of
every imported file, before the `ShouldUpdateLastProcessed` guard of
`processQueueVideos` ever runs; the guard then compares the entry's date
with itself.  The third conjunct shows the guard itself would have said no. -/
theorem c1_watermark_moves_backward :
    GetLastProcessedUploadDate c1DB = "20260215"
    ∧ (match processQueueStep c1Ocr 0 ⟨SaveQueue [c1Entry], c1DB⟩ with
       | .stepped _ _ s' => GetLastProcessedUploadDate s'.db
       | _ => "STEP FAILED") = "20260210"
    ∧ ShouldUpdateLastProcessed "20260210" "20260215" = false :=
  ⟨rfl, rfl, rfl⟩

/- ### Idempotence machinery (claim C3)

`pidOf` reads the id the importer's player get-or-create would use;
`matchRowsFor`/`partsFor` describe the rows one run of the matches loop
appends, starting from a given match id sequence value. -/

/-- The player id the lookup by name returns, if any. -/
def pidOf (ps : List Player) (n : String) : Option Nat :=
  (ps.find? (fun p => p.name = n)).map Player.id

/-- All participant names of a match list, in processing order. -/
def participantNames : List (Int × String × String) → List String
  | [] => []
  | m :: rest => parsePlayerName m.2.1 ++ parsePlayerName m.2.2 ++ participantNames rest

/-- The `matches` rows one run of the loop appends, with ids from `k` up. -/
def matchRowsFor (tid vid : Nat) (u : Int) : Nat → List (Int × String × String) → List MatchRow
  | _, [] => []
  | k, m :: rest =>
    ⟨k, tid, u + m.1,
      (parsePlayerName m.2.1).length > 1 ∨ (parsePlayerName m.2.2).length > 1, vid⟩ ::
      matchRowsFor tid vid u (k + 1) rest

/-- The `match_participants` rows one run of the loop appends. -/
def partsFor (pid : String → Nat) : Nat → List (Int × String × String) → List ParticipantRow
  | _, [] => []
  | k, m :: rest =>
    ((parsePlayerName m.2.1).map fun n => ⟨k, pid n, "A"⟩) ++
    ((parsePlayerName m.2.2).map fun n => ⟨k, pid n, "B"⟩) ++
    partsFor pid (k + 1) rest

/-- Player get-or-create leaves every table except players untouched. -/
theorem getOrCreatePlayer_rest (n : String) (db : DB) :
    (getOrCreatePlayer n db).2.videos = db.videos
    ∧ (getOrCreatePlayer n db).2.matchRows = db.matchRows
    ∧ (getOrCreatePlayer n db).2.participants = db.participants
    ∧ (getOrCreatePlayer n db).2.tournaments = db.tournaments
    ∧ (getOrCreatePlayer n db).2.nextVideoID = db.nextVideoID
    ∧ (getOrCreatePlayer n db).2.nextMatchID = db.nextMatchID
    ∧ (getOrCreatePlayer n db).2.nextTournamentID = db.nextTournamentID := by
  unfold getOrCreatePlayer
  cases db.players.find? (fun p => p.name = n) <;>
    exact ⟨rfl, rfl, rfl, rfl, rfl, rfl, rfl⟩

/-- Player get-or-create only appends to the players table. -/
theorem getOrCreatePlayer_players (n : String) (db : DB) :
    ∃ suffix, (getOrCreatePlayer n db).2.players = db.players ++ suffix := by
  unfold getOrCreatePlayer
  cases db.players.find? (fun p => p.name = n) with
  | none => exact ⟨[⟨db.nextPlayerID, n⟩], rfl⟩
  | some p => exact ⟨[], (List.append_nil _).symm⟩

/-- After get-or-create, the looked-up name resolves to the returned id. -/
theorem getOrCreatePlayer_pid (n : String) (db : DB) :
    pidOf (getOrCreatePlayer n db).2.players n = some (getOrCreatePlayer n db).1 := by
  unfold getOrCreatePlayer pidOf
  cases hf : db.players.find? (fun p => p.name = n) with
  | none =>
    show ((db.players ++ [(⟨db.nextPlayerID, n⟩ : Player)]).find?
      (fun p => p.name = n)).map Player.id = some db.nextPlayerID
    rw [List.find?_append, hf]
    simp
  | some p =>
    show (db.players.find? (fun p => p.name = n)).map Player.id = some p.id
    rw [hf]
    rfl

/-- A resolved name stays resolved to the same id after appends. -/
theorem pidOf_append (ps suffix : List Player) (n : String) (pid : Nat)
    (h : pidOf ps n = some pid) : pidOf (ps ++ suffix) n = some pid := by
  unfold pidOf at h ⊢
  cases hf : ps.find? (fun p => p.name = n) with
  | none => rw [hf] at h; cases h
  | some p =>
    rw [hf] at h
    rw [List.find?_append, hf]
    exact h

/-- Get-or-create of an already-resolved name is a pure lookup. -/
theorem getOrCreatePlayer_stable (n : String) (dbX : DB) (pid : Nat)
    (h : pidOf dbX.players n = some pid) :
    getOrCreatePlayer n dbX = (pid, dbX) := by
  unfold getOrCreatePlayer
  unfold pidOf at h
  cases hf : dbX.players.find? (fun p => p.name = n) with
  | none => rw [hf] at h; cases h
  | some p =>
    rw [hf] at h
    injection h with h
    rw [← h]

/-- Inserting a team touches only players and participants. -/
theorem insertTeam_rest (mid : Nat) (side : String) :
    ∀ (names : List String) (db : DB),
      (insertTeam mid side names db).matchRows = db.matchRows
      ∧ (insertTeam mid side names db).tournaments = db.tournaments
      ∧ (insertTeam mid side names db).nextVideoID = db.nextVideoID
      ∧ (insertTeam mid side names db).nextMatchID = db.nextMatchID
      ∧ (insertTeam mid side names db).nextTournamentID = db.nextTournamentID := by
  intro names
  induction names with
  | nil => intro db; exact ⟨rfl, rfl, rfl, rfl, rfl⟩
  | cons n rest ih =>
    intro db
    obtain ⟨h1, h2, h3, h4, h5⟩ := ih
      { (getOrCreatePlayer n db).2 with
        participants := (getOrCreatePlayer n db).2.participants ++
          [⟨mid, (getOrCreatePlayer n db).1, side⟩] }
    obtain ⟨g1, g2, g3, g4, g5, g6, g7⟩ := getOrCreatePlayer_rest n db
    exact ⟨h1.trans g2, h2.trans g4, h3.trans g5, h4.trans g6, h5.trans g7⟩

/-- Inserting a team only appends to the players table. -/
theorem insertTeam_players (mid : Nat) (side : String) :
    ∀ (names : List String) (db : DB),
      ∃ suffix, (insertTeam mid side names db).players = db.players ++ suffix := by
  intro names
  induction names with
  | nil => intro db; exact ⟨[], (List.append_nil _).symm⟩
  | cons n rest ih =>
    intro db
    obtain ⟨s2, h2⟩ := ih
      { (getOrCreatePlayer n db).2 with
        participants := (getOrCreatePlayer n db).2.participants ++
          [⟨mid, (getOrCreatePlayer n db).1, side⟩] }
    obtain ⟨s1, h1⟩ := getOrCreatePlayer_players n db
    refine ⟨s1 ++ s2, ?_⟩
    show (insertTeam mid side rest _).players = _
    rw [h2]
    show (getOrCreatePlayer n db).2.players ++ s2 = _
    rw [h1, List.append_assoc]

/-- One run of the team loop: every name ends up resolvable, and the
participants appended are exactly one row per name, carrying the id the
final players table resolves the name to. -/
theorem insertTeam_spec (mid : Nat) (side : String) :
    ∀ (names : List String) (db : DB),
      (∀ n ∈ names, ∃ pid,
        pidOf (insertTeam mid side names db).players n = some pid)
      ∧ (insertTeam mid side names db).participants =
          db.participants ++ names.map (fun n =>
            ⟨mid, (pidOf (insertTeam mid side names db).players n).getD 0, side⟩) := by
  intro names
  induction names with
  | nil =>
    intro db
    refine ⟨?_, (List.append_nil _).symm⟩
    intro n hn
    cases hn
  | cons n rest ih =>
    intro db
    obtain ⟨ihpid, ihparts⟩ := ih
      { (getOrCreatePlayer n db).2 with
        participants := (getOrCreatePlayer n db).2.participants ++
          [⟨mid, (getOrCreatePlayer n db).1, side⟩] }
    obtain ⟨sfx, hsfx⟩ := insertTeam_players mid side rest
      { (getOrCreatePlayer n db).2 with
        participants := (getOrCreatePlayer n db).2.participants ++
          [⟨mid, (getOrCreatePlayer n db).1, side⟩] }
    have hpidn : pidOf (insertTeam mid side (n :: rest) db).players n =
        some (getOrCreatePlayer n db).1 := by
      show pidOf (insertTeam mid side rest _).players n = _
      rw [hsfx]
      show pidOf ((getOrCreatePlayer n db).2.players ++ sfx) n = _
      exact pidOf_append _ _ _ _ (getOrCreatePlayer_pid n db)
    constructor
    · intro n' hn'
      rcases List.mem_cons.mp hn' with hh | ht
      · subst hh
        exact ⟨_, hpidn⟩
      · exact ihpid n' ht
    · have hp2 : ({ (getOrCreatePlayer n db).2 with
          participants := (getOrCreatePlayer n db).2.participants ++
            [⟨mid, (getOrCreatePlayer n db).1, side⟩] } : DB).participants =
          db.participants ++ [⟨mid, (getOrCreatePlayer n db).1, side⟩] := by
        show (getOrCreatePlayer n db).2.participants ++ _ = _
        rw [(getOrCreatePlayer_rest n db).2.2.1]
      show (insertTeam mid side rest _).participants = _
      rw [ihparts, hp2, List.append_assoc, List.map_cons]
      congr 1
      rw [List.singleton_append]
      congr 1
      rw [hpidn]
      rfl

/-- Replaying the team loop when every name already resolves: a pure lookup
per name, appending the same participant rows and adding no player. -/
theorem insertTeam_replay (mid : Nat) (side : String) :
    ∀ (names : List String) (dbX : DB),
      (∀ n ∈ names, (pidOf dbX.players n).isSome) →
      insertTeam mid side names dbX =
        { dbX with participants := dbX.participants ++ names.map (fun n =>
            ⟨mid, (pidOf dbX.players n).getD 0, side⟩) } := by
  intro names
  induction names with
  | nil =>
    intro dbX h
    show dbX = _
    rw [List.map_nil, List.append_nil]
  | cons n rest ih =>
    intro dbX h
    obtain ⟨pid, hpid⟩ := Option.isSome_iff_exists.mp (h n (List.mem_cons_self n rest))
    show insertTeam mid side rest
      { (getOrCreatePlayer n dbX).2 with
        participants := (getOrCreatePlayer n dbX).2.participants ++
          [⟨mid, (getOrCreatePlayer n dbX).1, side⟩] } = _
    rw [getOrCreatePlayer_stable n dbX pid hpid]
    rw [ih { dbX with participants := dbX.participants ++ [⟨mid, pid, side⟩] }
      (fun n' hn' => h n' (List.mem_cons_of_mem n hn'))]
    rw [List.map_cons, List.append_assoc, List.singleton_append, hpid]
    rfl

/-- The matches loop touches only players, matches, participants and the
match id sequence. -/
theorem insertMatches_rest (tid vid : Nat) (u : Int) :
    ∀ (ms : List (Int × String × String)) (db : DB),
      (insertMatches tid vid u ms db).tournaments = db.tournaments
      ∧ (insertMatches tid vid u ms db).nextVideoID = db.nextVideoID
      ∧ (insertMatches tid vid u ms db).nextTournamentID = db.nextTournamentID := by
  intro ms
  induction ms with
  | nil => intro db; exact ⟨rfl, rfl, rfl⟩
  | cons m rest ih =>
    intro db
    obtain ⟨h1, h2, h3⟩ := ih (insertTeam db.nextMatchID "B" (parsePlayerName m.2.2)
      (insertTeam db.nextMatchID "A" (parsePlayerName m.2.1)
        { db with
          matchRows := db.matchRows ++
            [⟨db.nextMatchID, tid, u + m.1,
              (parsePlayerName m.2.1).length > 1 ∨ (parsePlayerName m.2.2).length > 1, vid⟩],
          nextMatchID := db.nextMatchID + 1 }))
    obtain ⟨_, b2, b3, _, b5⟩ := insertTeam_rest db.nextMatchID "B" (parsePlayerName m.2.2)
      (insertTeam db.nextMatchID "A" (parsePlayerName m.2.1)
        { db with
          matchRows := db.matchRows ++
            [⟨db.nextMatchID, tid, u + m.1,
              (parsePlayerName m.2.1).length > 1 ∨ (parsePlayerName m.2.2).length > 1, vid⟩],
          nextMatchID := db.nextMatchID + 1 })
    obtain ⟨_, a2, a3, _, a5⟩ := insertTeam_rest db.nextMatchID "A" (parsePlayerName m.2.1)
      { db with
        matchRows := db.matchRows ++
          [⟨db.nextMatchID, tid, u + m.1,
            (parsePlayerName m.2.1).length > 1 ∨ (parsePlayerName m.2.2).length > 1, vid⟩],
        nextMatchID := db.nextMatchID + 1 }
    refine ⟨?_, ?_, ?_⟩
    · exact (h1.trans b2).trans a2
    · exact (h2.trans b3).trans a3
    · exact (h3.trans b5).trans a5

/-- A resolved name keeps resolving after appends (isSome form). -/
theorem pidOf_isSome_append (ps suffix : List Player) (n : String)
    (h : (pidOf ps n).isSome) : (pidOf (ps ++ suffix) n).isSome := by
  obtain ⟨pid, hpid⟩ := Option.isSome_iff_exists.mp h
  rw [pidOf_append ps suffix n pid hpid]
  rfl

/-- The matches loop only appends to the players table. -/
theorem insertMatches_players (tid vid : Nat) (u : Int) :
    ∀ (ms : List (Int × String × String)) (db : DB),
      ∃ suffix, (insertMatches tid vid u ms db).players = db.players ++ suffix := by
  intro ms
  induction ms with
  | nil => intro db; exact ⟨[], (List.append_nil _).symm⟩
  | cons m rest ih =>
    intro db
    set dbM : DB :=
      { db with
        matchRows := db.matchRows ++
          [⟨db.nextMatchID, tid, u + m.1,
            (parsePlayerName m.2.1).length > 1 ∨ (parsePlayerName m.2.2).length > 1, vid⟩],
        nextMatchID := db.nextMatchID + 1 } with hdbM
    obtain ⟨sA, hA⟩ := insertTeam_players db.nextMatchID "A" (parsePlayerName m.2.1) dbM
    obtain ⟨sB, hB⟩ := insertTeam_players db.nextMatchID "B" (parsePlayerName m.2.2)
      (insertTeam db.nextMatchID "A" (parsePlayerName m.2.1) dbM)
    obtain ⟨sR, hR⟩ := ih (insertTeam db.nextMatchID "B" (parsePlayerName m.2.2)
      (insertTeam db.nextMatchID "A" (parsePlayerName m.2.1) dbM))
    refine ⟨sA ++ sB ++ sR, ?_⟩
    show (insertMatches tid vid u rest _).players = _
    rw [hR, hB, hA]
    show db.players ++ sA ++ sB ++ sR = _
    rw [List.append_assoc, List.append_assoc, List.append_assoc]


/-- One run of the matches loop: every participant name ends up resolvable,
the appended `matches` rows are `matchRowsFor` from the starting match id,
the id sequence advances by the number of matches, and the appended
participants are `partsFor` with the ids the final players table resolves. -/
theorem insertMatches_spec (tid vid : Nat) (u : Int) :
    ∀ (ms : List (Int × String × String)) (db : DB),
      (∀ n ∈ participantNames ms,
        (pidOf (insertMatches tid vid u ms db).players n).isSome)
      ∧ (insertMatches tid vid u ms db).matchRows =
          db.matchRows ++ matchRowsFor tid vid u db.nextMatchID ms
      ∧ (insertMatches tid vid u ms db).nextMatchID = db.nextMatchID + ms.length
      ∧ (insertMatches tid vid u ms db).participants =
          db.participants ++ partsFor
            (fun n => (pidOf (insertMatches tid vid u ms db).players n).getD 0)
            db.nextMatchID ms := by
  intro ms
  induction ms with
  | nil =>
    intro db
    refine ⟨?_, ?_, rfl, ?_⟩
    · intro n hn
      cases hn
    · show db.matchRows = db.matchRows ++ []
      rw [List.append_nil]
    · show db.participants = db.participants ++ []
      rw [List.append_nil]
  | cons m rest ih =>
    intro db
    obtain ⟨specA1, specA2⟩ := insertTeam_spec db.nextMatchID "A" (parsePlayerName m.2.1)
      ({ db with matchRows := db.matchRows ++ [(⟨db.nextMatchID, tid, u + m.1, (parsePlayerName m.2.1).length > 1 ∨ (parsePlayerName m.2.2).length > 1, vid⟩ : MatchRow)], nextMatchID := db.nextMatchID + 1 })
    obtain ⟨specB1, specB2⟩ := insertTeam_spec db.nextMatchID "B" (parsePlayerName m.2.2)
      (insertTeam db.nextMatchID "A" (parsePlayerName m.2.1) ({ db with matchRows := db.matchRows ++ [(⟨db.nextMatchID, tid, u + m.1, (parsePlayerName m.2.1).length > 1 ∨ (parsePlayerName m.2.2).length > 1, vid⟩ : MatchRow)], nextMatchID := db.nextMatchID + 1 }))
    obtain ⟨ihn, ihm, ihk, ihp⟩ := ih (insertTeam db.nextMatchID "B" (parsePlayerName m.2.2) (insertTeam db.nextMatchID "A" (parsePlayerName m.2.1) ({ db with matchRows := db.matchRows ++ [(⟨db.nextMatchID, tid, u + m.1, (parsePlayerName m.2.1).length > 1 ∨ (parsePlayerName m.2.2).length > 1, vid⟩ : MatchRow)], nextMatchID := db.nextMatchID + 1 })))
    obtain ⟨sB, hsB⟩ := insertTeam_players db.nextMatchID "B" (parsePlayerName m.2.2)
      (insertTeam db.nextMatchID "A" (parsePlayerName m.2.1) ({ db with matchRows := db.matchRows ++ [(⟨db.nextMatchID, tid, u + m.1, (parsePlayerName m.2.1).length > 1 ∨ (parsePlayerName m.2.2).length > 1, vid⟩ : MatchRow)], nextMatchID := db.nextMatchID + 1 }))
    obtain ⟨sR, hsR⟩ := insertMatches_players tid vid u rest (insertTeam db.nextMatchID "B" (parsePlayerName m.2.2) (insertTeam db.nextMatchID "A" (parsePlayerName m.2.1) ({ db with matchRows := db.matchRows ++ [(⟨db.nextMatchID, tid, u + m.1, (parsePlayerName m.2.1).length > 1 ∨ (parsePlayerName m.2.2).length > 1, vid⟩ : MatchRow)], nextMatchID := db.nextMatchID + 1 })))
    have hfinA : (insertMatches tid vid u rest (insertTeam db.nextMatchID "B" (parsePlayerName m.2.2) (insertTeam db.nextMatchID "A" (parsePlayerName m.2.1) ({ db with matchRows := db.matchRows ++ [(⟨db.nextMatchID, tid, u + m.1, (parsePlayerName m.2.1).length > 1 ∨ (parsePlayerName m.2.2).length > 1, vid⟩ : MatchRow)], nextMatchID := db.nextMatchID + 1 })))).players = (insertTeam db.nextMatchID "A" (parsePlayerName m.2.1) ({ db with matchRows := db.matchRows ++ [(⟨db.nextMatchID, tid, u + m.1, (parsePlayerName m.2.1).length > 1 ∨ (parsePlayerName m.2.2).length > 1, vid⟩ : MatchRow)], nextMatchID := db.nextMatchID + 1 })).players ++ (sB ++ sR) := by
      rw [hsR, hsB, List.append_assoc]
    have hAm : (insertTeam db.nextMatchID "A" (parsePlayerName m.2.1) ({ db with matchRows := db.matchRows ++ [(⟨db.nextMatchID, tid, u + m.1, (parsePlayerName m.2.1).length > 1 ∨ (parsePlayerName m.2.2).length > 1, vid⟩ : MatchRow)], nextMatchID := db.nextMatchID + 1 })).matchRows = ({ db with matchRows := db.matchRows ++ [(⟨db.nextMatchID, tid, u + m.1, (parsePlayerName m.2.1).length > 1 ∨ (parsePlayerName m.2.2).length > 1, vid⟩ : MatchRow)], nextMatchID := db.nextMatchID + 1 }).matchRows := (insertTeam_rest _ _ _ _).1
    have hBm2 : (insertTeam db.nextMatchID "B" (parsePlayerName m.2.2) (insertTeam db.nextMatchID "A" (parsePlayerName m.2.1) ({ db with matchRows := db.matchRows ++ [(⟨db.nextMatchID, tid, u + m.1, (parsePlayerName m.2.1).length > 1 ∨ (parsePlayerName m.2.2).length > 1, vid⟩ : MatchRow)], nextMatchID := db.nextMatchID + 1 }))).matchRows = (insertTeam db.nextMatchID "A" (parsePlayerName m.2.1) ({ db with matchRows := db.matchRows ++ [(⟨db.nextMatchID, tid, u + m.1, (parsePlayerName m.2.1).length > 1 ∨ (parsePlayerName m.2.2).length > 1, vid⟩ : MatchRow)], nextMatchID := db.nextMatchID + 1 })).matchRows := (insertTeam_rest _ _ _ _).1
    have hAk : (insertTeam db.nextMatchID "A" (parsePlayerName m.2.1) ({ db with matchRows := db.matchRows ++ [(⟨db.nextMatchID, tid, u + m.1, (parsePlayerName m.2.1).length > 1 ∨ (parsePlayerName m.2.2).length > 1, vid⟩ : MatchRow)], nextMatchID := db.nextMatchID + 1 })).nextMatchID = ({ db with matchRows := db.matchRows ++ [(⟨db.nextMatchID, tid, u + m.1, (parsePlayerName m.2.1).length > 1 ∨ (parsePlayerName m.2.2).length > 1, vid⟩ : MatchRow)], nextMatchID := db.nextMatchID + 1 }).nextMatchID := (insertTeam_rest _ _ _ _).2.2.2.1
    have hBk2 : (insertTeam db.nextMatchID "B" (parsePlayerName m.2.2) (insertTeam db.nextMatchID "A" (parsePlayerName m.2.1) ({ db with matchRows := db.matchRows ++ [(⟨db.nextMatchID, tid, u + m.1, (parsePlayerName m.2.1).length > 1 ∨ (parsePlayerName m.2.2).length > 1, vid⟩ : MatchRow)], nextMatchID := db.nextMatchID + 1 }))).nextMatchID = (insertTeam db.nextMatchID "A" (parsePlayerName m.2.1) ({ db with matchRows := db.matchRows ++ [(⟨db.nextMatchID, tid, u + m.1, (parsePlayerName m.2.1).length > 1 ∨ (parsePlayerName m.2.2).length > 1, vid⟩ : MatchRow)], nextMatchID := db.nextMatchID + 1 })).nextMatchID := (insertTeam_rest _ _ _ _).2.2.2.1
    refine ⟨?_, ?_, ?_, ?_⟩
    · intro n hn
      show (pidOf (insertMatches tid vid u rest (insertTeam db.nextMatchID "B" (parsePlayerName m.2.2) (insertTeam db.nextMatchID "A" (parsePlayerName m.2.1) ({ db with matchRows := db.matchRows ++ [(⟨db.nextMatchID, tid, u + m.1, (parsePlayerName m.2.1).length > 1 ∨ (parsePlayerName m.2.2).length > 1, vid⟩ : MatchRow)], nextMatchID := db.nextMatchID + 1 })))).players n).isSome
      have hn3 : n ∈ parsePlayerName m.2.1 ∨ n ∈ parsePlayerName m.2.2 ∨
          n ∈ participantNames rest := by
        simpa [participantNames] using hn
      rcases hn3 with hA | hB | hR
      · obtain ⟨pid, hpid⟩ := specA1 n hA
        rw [hfinA]
        exact pidOf_isSome_append _ _ _ (by rw [hpid]; rfl)
      · obtain ⟨pid, hpid⟩ := specB1 n hB
        rw [hsR]
        exact pidOf_isSome_append _ _ _ (by rw [hpid]; rfl)
      · exact ihn n hR
    · show (insertMatches tid vid u rest (insertTeam db.nextMatchID "B" (parsePlayerName m.2.2) (insertTeam db.nextMatchID "A" (parsePlayerName m.2.1) ({ db with matchRows := db.matchRows ++ [(⟨db.nextMatchID, tid, u + m.1, (parsePlayerName m.2.1).length > 1 ∨ (parsePlayerName m.2.2).length > 1, vid⟩ : MatchRow)], nextMatchID := db.nextMatchID + 1 })))).matchRows = _
      rw [ihm, hBm2, hAm, hBk2, hAk]
      show (db.matchRows ++ [(⟨db.nextMatchID, tid, u + m.1, (parsePlayerName m.2.1).length > 1 ∨ (parsePlayerName m.2.2).length > 1, vid⟩ : MatchRow)]) ++ matchRowsFor tid vid u (db.nextMatchID + 1) rest =
        db.matchRows ++ ((⟨db.nextMatchID, tid, u + m.1, (parsePlayerName m.2.1).length > 1 ∨ (parsePlayerName m.2.2).length > 1, vid⟩ : MatchRow) :: matchRowsFor tid vid u (db.nextMatchID + 1) rest)
      rw [List.append_assoc, List.singleton_append]
    · show (insertMatches tid vid u rest (insertTeam db.nextMatchID "B" (parsePlayerName m.2.2) (insertTeam db.nextMatchID "A" (parsePlayerName m.2.1) ({ db with matchRows := db.matchRows ++ [(⟨db.nextMatchID, tid, u + m.1, (parsePlayerName m.2.1).length > 1 ∨ (parsePlayerName m.2.2).length > 1, vid⟩ : MatchRow)], nextMatchID := db.nextMatchID + 1 })))).nextMatchID = _
      rw [ihk, hBk2, hAk]
      show db.nextMatchID + 1 + rest.length = db.nextMatchID + (m :: rest).length
      rw [List.length_cons]
      omega
    · show (insertMatches tid vid u rest (insertTeam db.nextMatchID "B" (parsePlayerName m.2.2) (insertTeam db.nextMatchID "A" (parsePlayerName m.2.1) ({ db with matchRows := db.matchRows ++ [(⟨db.nextMatchID, tid, u + m.1, (parsePlayerName m.2.1).length > 1 ∨ (parsePlayerName m.2.2).length > 1, vid⟩ : MatchRow)], nextMatchID := db.nextMatchID + 1 })))).participants = db.participants ++ partsFor
        (fun n => (pidOf (insertMatches tid vid u rest (insertTeam db.nextMatchID "B" (parsePlayerName m.2.2) (insertTeam db.nextMatchID "A" (parsePlayerName m.2.1) ({ db with matchRows := db.matchRows ++ [(⟨db.nextMatchID, tid, u + m.1, (parsePlayerName m.2.1).length > 1 ∨ (parsePlayerName m.2.2).length > 1, vid⟩ : MatchRow)], nextMatchID := db.nextMatchID + 1 })))).players n).getD 0) db.nextMatchID (m :: rest)
      rw [ihp, specB2, specA2, hBk2, hAk]
      have hMp : ({ db with matchRows := db.matchRows ++ [(⟨db.nextMatchID, tid, u + m.1, (parsePlayerName m.2.1).length > 1 ∨ (parsePlayerName m.2.2).length > 1, vid⟩ : MatchRow)], nextMatchID := db.nextMatchID + 1 } : DB).participants = db.participants := rfl
      have hMk : ({ db with matchRows := db.matchRows ++ [(⟨db.nextMatchID, tid, u + m.1, (parsePlayerName m.2.1).length > 1 ∨ (parsePlayerName m.2.2).length > 1, vid⟩ : MatchRow)], nextMatchID := db.nextMatchID + 1 } : DB).nextMatchID = db.nextMatchID + 1 := rfl
      rw [hMp, hMk]
      have hMapA : (parsePlayerName m.2.1).map (fun n =>
            (⟨db.nextMatchID, (pidOf (insertTeam db.nextMatchID "A" (parsePlayerName m.2.1) ({ db with matchRows := db.matchRows ++ [(⟨db.nextMatchID, tid, u + m.1, (parsePlayerName m.2.1).length > 1 ∨ (parsePlayerName m.2.2).length > 1, vid⟩ : MatchRow)], nextMatchID := db.nextMatchID + 1 })).players n).getD 0, "A"⟩ : ParticipantRow)) =
          (parsePlayerName m.2.1).map (fun n =>
            (⟨db.nextMatchID, (pidOf (insertMatches tid vid u rest (insertTeam db.nextMatchID "B" (parsePlayerName m.2.2) (insertTeam db.nextMatchID "A" (parsePlayerName m.2.1) ({ db with matchRows := db.matchRows ++ [(⟨db.nextMatchID, tid, u + m.1, (parsePlayerName m.2.1).length > 1 ∨ (parsePlayerName m.2.2).length > 1, vid⟩ : MatchRow)], nextMatchID := db.nextMatchID + 1 })))).players n).getD 0, "A"⟩ : ParticipantRow)) := by
        apply List.map_congr_left
        intro n hA
        obtain ⟨pid, hpid⟩ := specA1 n hA
        have hpid2 : pidOf (insertMatches tid vid u rest (insertTeam db.nextMatchID "B" (parsePlayerName m.2.2) (insertTeam db.nextMatchID "A" (parsePlayerName m.2.1) ({ db with matchRows := db.matchRows ++ [(⟨db.nextMatchID, tid, u + m.1, (parsePlayerName m.2.1).length > 1 ∨ (parsePlayerName m.2.2).length > 1, vid⟩ : MatchRow)], nextMatchID := db.nextMatchID + 1 })))).players n = some pid := by
          rw [hfinA]
          exact pidOf_append _ _ _ _ hpid
        rw [hpid, hpid2]
      have hMapB : (parsePlayerName m.2.2).map (fun n =>
            (⟨db.nextMatchID, (pidOf (insertTeam db.nextMatchID "B" (parsePlayerName m.2.2) (insertTeam db.nextMatchID "A" (parsePlayerName m.2.1) ({ db with matchRows := db.matchRows ++ [(⟨db.nextMatchID, tid, u + m.1, (parsePlayerName m.2.1).length > 1 ∨ (parsePlayerName m.2.2).length > 1, vid⟩ : MatchRow)], nextMatchID := db.nextMatchID + 1 }))).players n).getD 0, "B"⟩ : ParticipantRow)) =
          (parsePlayerName m.2.2).map (fun n =>
            (⟨db.nextMatchID, (pidOf (insertMatches tid vid u rest (insertTeam db.nextMatchID "B" (parsePlayerName m.2.2) (insertTeam db.nextMatchID "A" (parsePlayerName m.2.1) ({ db with matchRows := db.matchRows ++ [(⟨db.nextMatchID, tid, u + m.1, (parsePlayerName m.2.1).length > 1 ∨ (parsePlayerName m.2.2).length > 1, vid⟩ : MatchRow)], nextMatchID := db.nextMatchID + 1 })))).players n).getD 0, "B"⟩ : ParticipantRow)) := by
        apply List.map_congr_left
        intro n hB
        obtain ⟨pid, hpid⟩ := specB1 n hB
        have hpid2 : pidOf (insertMatches tid vid u rest (insertTeam db.nextMatchID "B" (parsePlayerName m.2.2) (insertTeam db.nextMatchID "A" (parsePlayerName m.2.1) ({ db with matchRows := db.matchRows ++ [(⟨db.nextMatchID, tid, u + m.1, (parsePlayerName m.2.1).length > 1 ∨ (parsePlayerName m.2.2).length > 1, vid⟩ : MatchRow)], nextMatchID := db.nextMatchID + 1 })))).players n = some pid := by
          rw [hsR]
          exact pidOf_append _ _ _ _ hpid
        rw [hpid, hpid2]
      rw [hMapA, hMapB]
      rw [show partsFor (fun n => (pidOf (insertMatches tid vid u rest (insertTeam db.nextMatchID "B" (parsePlayerName m.2.2) (insertTeam db.nextMatchID "A" (parsePlayerName m.2.1) ({ db with matchRows := db.matchRows ++ [(⟨db.nextMatchID, tid, u + m.1, (parsePlayerName m.2.1).length > 1 ∨ (parsePlayerName m.2.2).length > 1, vid⟩ : MatchRow)], nextMatchID := db.nextMatchID + 1 })))).players n).getD 0)
            db.nextMatchID (m :: rest) =
          ((parsePlayerName m.2.1).map fun n =>
            (⟨db.nextMatchID, (pidOf (insertMatches tid vid u rest (insertTeam db.nextMatchID "B" (parsePlayerName m.2.2) (insertTeam db.nextMatchID "A" (parsePlayerName m.2.1) ({ db with matchRows := db.matchRows ++ [(⟨db.nextMatchID, tid, u + m.1, (parsePlayerName m.2.1).length > 1 ∨ (parsePlayerName m.2.2).length > 1, vid⟩ : MatchRow)], nextMatchID := db.nextMatchID + 1 })))).players n).getD 0, "A"⟩ : ParticipantRow)) ++
          ((parsePlayerName m.2.2).map fun n =>
            (⟨db.nextMatchID, (pidOf (insertMatches tid vid u rest (insertTeam db.nextMatchID "B" (parsePlayerName m.2.2) (insertTeam db.nextMatchID "A" (parsePlayerName m.2.1) ({ db with matchRows := db.matchRows ++ [(⟨db.nextMatchID, tid, u + m.1, (parsePlayerName m.2.1).length > 1 ∨ (parsePlayerName m.2.2).length > 1, vid⟩ : MatchRow)], nextMatchID := db.nextMatchID + 1 })))).players n).getD 0, "B"⟩ : ParticipantRow)) ++
          partsFor (fun n => (pidOf (insertMatches tid vid u rest (insertTeam db.nextMatchID "B" (parsePlayerName m.2.2) (insertTeam db.nextMatchID "A" (parsePlayerName m.2.1) ({ db with matchRows := db.matchRows ++ [(⟨db.nextMatchID, tid, u + m.1, (parsePlayerName m.2.1).length > 1 ∨ (parsePlayerName m.2.2).length > 1, vid⟩ : MatchRow)], nextMatchID := db.nextMatchID + 1 })))).players n).getD 0)
            (db.nextMatchID + 1) rest from rfl]
      simp [List.append_assoc]

/-- The team loop adds no player when every name already resolves. -/
theorem insertTeam_no_new_players (mid : Nat) (side : String) :
    ∀ (names : List String) (dbX : DB),
      (∀ n ∈ names, (pidOf dbX.players n).isSome) →
      (insertTeam mid side names dbX).players = dbX.players := by
  intro names
  induction names with
  | nil =>
    intro dbX h
    rfl
  | cons n rest ih =>
    intro dbX h
    obtain ⟨pid, hpid⟩ := Option.isSome_iff_exists.mp (h n (List.mem_cons_self n rest))
    show (insertTeam mid side rest
      { (getOrCreatePlayer n dbX).2 with
        participants := (getOrCreatePlayer n dbX).2.participants ++
          [⟨mid, (getOrCreatePlayer n dbX).1, side⟩] }).players = dbX.players
    rw [getOrCreatePlayer_stable n dbX pid hpid]
    exact ih { dbX with participants := dbX.participants ++ [⟨mid, pid, side⟩] }
      (fun n' hn' => h n' (List.mem_cons_of_mem n hn'))

/-- The matches loop adds no player when every name already resolves. -/
theorem insertMatches_no_new_players (tid vid : Nat) (u : Int) :
    ∀ (ms : List (Int × String × String)) (dbX : DB),
      (∀ n ∈ participantNames ms, (pidOf dbX.players n).isSome) →
      (insertMatches tid vid u ms dbX).players = dbX.players := by
  intro ms
  induction ms with
  | nil =>
    intro dbX h
    rfl
  | cons m rest ih =>
    intro dbX h
    have hA : ∀ n ∈ parsePlayerName m.2.1, (pidOf dbX.players n).isSome := by
      intro n hn
      exact h n (by simp [participantNames, hn])
    have hB : ∀ n ∈ parsePlayerName m.2.2, (pidOf dbX.players n).isSome := by
      intro n hn
      exact h n (by simp [participantNames, hn])
    have hR : ∀ n ∈ participantNames rest, (pidOf dbX.players n).isSome := by
      intro n hn
      exact h n (by simp [participantNames, hn])
    have hAp : (insertTeam dbX.nextMatchID "A" (parsePlayerName m.2.1)
        { dbX with
          matchRows := dbX.matchRows ++
            [⟨dbX.nextMatchID, tid, u + m.1,
              (parsePlayerName m.2.1).length > 1 ∨ (parsePlayerName m.2.2).length > 1, vid⟩],
          nextMatchID := dbX.nextMatchID + 1 }).players = dbX.players :=
      insertTeam_no_new_players _ _ _ _ hA
    have hBp : (insertTeam dbX.nextMatchID "B" (parsePlayerName m.2.2)
        (insertTeam dbX.nextMatchID "A" (parsePlayerName m.2.1)
          { dbX with
            matchRows := dbX.matchRows ++
              [⟨dbX.nextMatchID, tid, u + m.1,
                (parsePlayerName m.2.1).length > 1 ∨ (parsePlayerName m.2.2).length > 1, vid⟩],
            nextMatchID := dbX.nextMatchID + 1 })).players = dbX.players := by
      rw [insertTeam_no_new_players _ _ _ _ (by
        intro n hn
        rw [hAp]
        exact hB n hn)]
      exact hAp
    show (insertMatches tid vid u rest _).players = dbX.players
    rw [ih _ (by
      intro n hn
      rw [hBp]
      exact hR n hn)]
    exact hBp

/-- `partsFor` depends on the id function only at the participant names. -/
theorem partsFor_congr (pid1 pid2 : String → Nat) :
    ∀ (ms : List (Int × String × String)) (k : Nat),
      (∀ n ∈ participantNames ms, pid1 n = pid2 n) →
      partsFor pid1 k ms = partsFor pid2 k ms := by
  intro ms
  induction ms with
  | nil => intro k h; rfl
  | cons m rest ih =>
    intro k h
    have h1 : ∀ n ∈ parsePlayerName m.2.1, pid1 n = pid2 n :=
      fun n hn => h n (by simp [participantNames, hn])
    have h2 : ∀ n ∈ parsePlayerName m.2.2, pid1 n = pid2 n :=
      fun n hn => h n (by simp [participantNames, hn])
    have hm1 : (parsePlayerName m.2.1).map
          (fun n => (⟨k, pid1 n, "A"⟩ : ParticipantRow)) =
        (parsePlayerName m.2.1).map (fun n => (⟨k, pid2 n, "A"⟩ : ParticipantRow)) :=
      List.map_congr_left (fun n hn => by rw [h1 n hn])
    have hm2 : (parsePlayerName m.2.2).map
          (fun n => (⟨k, pid1 n, "B"⟩ : ParticipantRow)) =
        (parsePlayerName m.2.2).map (fun n => (⟨k, pid2 n, "B"⟩ : ParticipantRow)) :=
      List.map_congr_left (fun n hn => by rw [h2 n hn])
    show ((parsePlayerName m.2.1).map fun n => (⟨k, pid1 n, "A"⟩ : ParticipantRow)) ++
        ((parsePlayerName m.2.2).map fun n => (⟨k, pid1 n, "B"⟩ : ParticipantRow)) ++
        partsFor pid1 (k + 1) rest =
      ((parsePlayerName m.2.1).map fun n => (⟨k, pid2 n, "A"⟩ : ParticipantRow)) ++
        ((parsePlayerName m.2.2).map fun n => (⟨k, pid2 n, "B"⟩ : ParticipantRow)) ++
        partsFor pid2 (k + 1) rest
    rw [hm1, hm2, ih (k + 1) (fun n hn => h n (by simp [participantNames, hn]))]

/-- The projected content of `matchRowsFor` does not depend on the starting
match id. -/
theorem matchRowsFor_content (tid vid : Nat) (u : Int) :
    ∀ (ms : List (Int × String × String)) (k k' : Nat),
      (matchRowsFor tid vid u k ms).map matchContent =
        (matchRowsFor tid vid u k' ms).map matchContent := by
  intro ms
  induction ms with
  | nil => intro k k'; rfl
  | cons m rest ih =>
    intro k k'
    show matchContent _ :: (matchRowsFor tid vid u (k + 1) rest).map matchContent =
      matchContent _ :: (matchRowsFor tid vid u (k' + 1) rest).map matchContent
    rw [ih (k + 1) (k' + 1)]
    rfl

/-- The projected content of `partsFor` does not depend on the starting
match id. -/
theorem partsFor_content (pid : String → Nat) :
    ∀ (ms : List (Int × String × String)) (k k' : Nat),
      (partsFor pid k ms).map partContent = (partsFor pid k' ms).map partContent := by
  intro ms
  induction ms with
  | nil => intro k k'; rfl
  | cons m rest ih =>
    intro k k'
    show (((parsePlayerName m.2.1).map fun n => (⟨k, pid n, "A"⟩ : ParticipantRow)) ++
        ((parsePlayerName m.2.2).map fun n => (⟨k, pid n, "B"⟩ : ParticipantRow)) ++
        partsFor pid (k + 1) rest).map partContent = _
    show _ = (((parsePlayerName m.2.1).map fun n => (⟨k', pid n, "A"⟩ : ParticipantRow)) ++
        ((parsePlayerName m.2.2).map fun n => (⟨k', pid n, "B"⟩ : ParticipantRow)) ++
        partsFor pid (k' + 1) rest).map partContent
    rw [List.map_append, List.map_append, List.map_append, List.map_append,
      List.map_map, List.map_map, List.map_map, List.map_map, ih (k + 1) (k' + 1)]
    rfl

/-- Every row `matchRowsFor` appends carries the video's id, and an id at
least the starting match id. -/
theorem matchRowsFor_mem (tid vid : Nat) (u : Int) :
    ∀ (ms : List (Int × String × String)) (k : Nat) (mr : MatchRow),
      mr ∈ matchRowsFor tid vid u k ms → mr.videoID = vid ∧ k ≤ mr.id := by
  intro ms
  induction ms with
  | nil => intro k mr hmr; cases hmr
  | cons m rest ih =>
    intro k mr hmr
    rcases List.mem_cons.mp hmr with hh | ht
    · subst hh
      exact ⟨rfl, le_refl k⟩
    · obtain ⟨h1, h2⟩ := ih (k + 1) mr ht
      exact ⟨h1, le_trans (Nat.le_succ k) h2⟩

/-- Every participant `partsFor` appends references one of the
`matchRowsFor` rows. -/
theorem partsFor_matchRowsFor (pid : String → Nat) (tid vid : Nat) (u : Int) :
    ∀ (ms : List (Int × String × String)) (k : Nat) (p : ParticipantRow),
      p ∈ partsFor pid k ms →
      ∃ mr ∈ matchRowsFor tid vid u k ms, mr.id = p.matchID := by
  intro ms
  induction ms with
  | nil => intro k p hp; cases hp
  | cons m rest ih =>
    intro k p hp
    have hp' : p ∈ ((parsePlayerName m.2.1).map fun n => (⟨k, pid n, "A"⟩ : ParticipantRow)) ++
        ((parsePlayerName m.2.2).map fun n => (⟨k, pid n, "B"⟩ : ParticipantRow)) ++
        partsFor pid (k + 1) rest := hp
    rcases List.mem_append.mp hp' with h12 | hrest
    · have hmid : p.matchID = k := by
        rcases List.mem_append.mp h12 with h1 | h2
        · obtain ⟨n, _, hn⟩ := List.mem_map.mp h1
          rw [← hn]
        · obtain ⟨n, _, hn⟩ := List.mem_map.mp h2
          rw [← hn]
      refine ⟨⟨k, tid, u + m.1,
        (parsePlayerName m.2.1).length > 1 ∨ (parsePlayerName m.2.2).length > 1, vid⟩,
        List.mem_cons_self _ _, ?_⟩
      rw [hmid]
    · obtain ⟨mr, hmr, hid⟩ := ih (k + 1) p hrest
      exact ⟨mr, List.mem_cons_of_mem _ hmr, hid⟩

/-- A youtube-id lookup commutes with a row transformation that preserves
youtube ids. -/
theorem find?_videos_map (g : VideoRow → VideoRow)
    (hg : ∀ w, (g w).youtubeID = w.youtubeID) (l : List VideoRow) (yid : String) :
    (l.map g).find? (fun r => r.youtubeID = yid) =
      (l.find? (fun r => r.youtubeID = yid)).map g := by
  rw [List.find?_map]
  have hfun : ((fun (r : VideoRow) => decide (r.youtubeID = yid)) ∘ g) =
      (fun (r : VideoRow) => decide (r.youtubeID = yid)) := by
    funext w
    show decide ((g w).youtubeID = yid) = decide (w.youtubeID = yid)
    rw [hg w]
  rw [hfun]

/-- The in-place video update is a no-op when the target row already carries
the new title and upload date (ids unique). -/
theorem videos_update_noop (l : List VideoRow) (vid : Nat) (ttl : String)
    (u : Int) (hnd : (l.map VideoRow.id).Nodup) (row : VideoRow)
    (hmem : row ∈ l) (hid : row.id = vid) (ht : row.title = ttl)
    (hu : row.uploadDate = u) :
    (l.map fun (w : VideoRow) =>
      if w.id = vid then { w with title := ttl, uploadDate := u } else w) = l := by
  have hpt : ∀ w ∈ l, (fun (w : VideoRow) =>
      if w.id = vid then { w with title := ttl, uploadDate := u } else w) w = id w := by
    intro w hw
    by_cases hwid : w.id = vid
    · have hweq : w = row :=
        List.inj_on_of_nodup_map hnd hw hmem (by rw [hwid, hid])
      subst hweq
      show (if w.id = vid then ({ w with title := ttl, uploadDate := u } : VideoRow) else w) = w
      rw [if_pos hwid, ← ht, ← hu]
    · show (if w.id = vid then ({ w with title := ttl, uploadDate := u } : VideoRow) else w) = w
      rw [if_neg hwid]
  rw [List.map_congr_left hpt, List.map_id]

/-- After the video step, looking the youtube id up again finds the row with
the returned id and the just-written title and upload date. -/
theorem getOrCreateVideo_find (yid ttl : String) (u : Int) (db : DB) :
    ∃ row, (getOrCreateVideo yid ttl u db).2.videos.find?
        (fun r => r.youtubeID = yid) = some row ∧
      row.id = (getOrCreateVideo yid ttl u db).1 ∧ row.title = ttl ∧
      row.uploadDate = u := by
  unfold getOrCreateVideo
  cases hf : db.videos.find? (fun r => r.youtubeID = yid) with
  | none =>
    refine ⟨⟨db.nextVideoID, yid, ttl, u, false⟩, ?_, rfl, rfl, rfl⟩
    show (db.videos ++ [(⟨db.nextVideoID, yid, ttl, u, false⟩ : VideoRow)]).find?
      (fun r => r.youtubeID = yid) = _
    rw [List.find?_append, hf]
    simp
  | some r =>
    refine ⟨{ r with title := ttl, uploadDate := u }, ?_, rfl, rfl, rfl⟩
    show (db.videos.map fun (w : VideoRow) =>
      if w.id = r.id then { w with title := ttl, uploadDate := u } else w).find?
      (fun x => x.youtubeID = yid) = _
    rw [find?_videos_map _ (fun w => by
      by_cases hw : w.id = r.id
      · show VideoRow.youtubeID (if w.id = r.id then _ else w) = _
        rw [if_pos hw]
      · show VideoRow.youtubeID (if w.id = r.id then _ else w) = _
        rw [if_neg hw]), hf]
    show some (if r.id = r.id then ({ r with title := ttl, uploadDate := u } : VideoRow) else r) = _
    rw [if_pos rfl]

/-- The video step touches neither tournaments, players, nor the other id
sequences. -/
theorem getOrCreateVideo_rest (yid ttl : String) (u : Int) (db : DB) :
    (getOrCreateVideo yid ttl u db).2.tournaments = db.tournaments
    ∧ (getOrCreateVideo yid ttl u db).2.players = db.players
    ∧ (getOrCreateVideo yid ttl u db).2.nextMatchID = db.nextMatchID
    ∧ (getOrCreateVideo yid ttl u db).2.nextTournamentID = db.nextTournamentID := by
  unfold getOrCreateVideo
  cases db.videos.find? (fun r => r.youtubeID = yid) <;> exact ⟨rfl, rfl, rfl, rfl⟩

/-- Under the schema's integrity, the video step always leaves exactly the
matches whose video differs from the target, and the participants not
referencing a match of the target (in the insert case both filters are
no-ops). -/
theorem getOrCreateVideo_tables (yid ttl : String) (u : Int) (db : DB)
    (hFKm : ∀ mr ∈ db.matchRows, mr.videoID ∈ db.videos.map VideoRow.id)
    (hlt : ∀ r ∈ db.videos, r.id < db.nextVideoID) :
    (getOrCreateVideo yid ttl u db).2.matchRows =
      db.matchRows.filter (fun mr => ¬ mr.videoID = (getOrCreateVideo yid ttl u db).1)
    ∧ (getOrCreateVideo yid ttl u db).2.participants =
      db.participants.filter (fun p => ¬ db.matchRows.any fun mr =>
        mr.id = p.matchID ∧ mr.videoID = (getOrCreateVideo yid ttl u db).1) := by
  unfold getOrCreateVideo
  cases hf : db.videos.find? (fun r => r.youtubeID = yid) with
  | none =>
    have hne : ∀ mr ∈ db.matchRows, ¬ mr.videoID = db.nextVideoID := by
      intro mr hmr heq
      obtain ⟨r, hr, hrid⟩ := List.mem_map.mp (hFKm mr hmr)
      exact absurd (hrid.trans heq) (Nat.ne_of_lt (hlt r hr))
    constructor
    · show db.matchRows = db.matchRows.filter _
      symm
      rw [List.filter_eq_self]
      intro mr hmr
      simpa using hne mr hmr
    · show db.participants = db.participants.filter _
      symm
      rw [List.filter_eq_self]
      intro p hp
      simp only [decide_eq_true_eq, List.any_eq_true]
      rintro ⟨mr, hmr, _, h2⟩
      exact hne mr hmr h2
  | some r =>
    exact ⟨rfl, rfl⟩

/-- Tournament get-or-create touches only the tournaments table and its id
sequence. -/
theorem getOrCreateTournament_rest (n : String) (y : Int) (db : DB) :
    (getOrCreateTournament n y db).2.matchRows = db.matchRows
    ∧ (getOrCreateTournament n y db).2.participants = db.participants
    ∧ (getOrCreateTournament n y db).2.players = db.players
    ∧ (getOrCreateTournament n y db).2.nextMatchID = db.nextMatchID := by
  unfold getOrCreateTournament
  cases db.tournaments.find? (fun t => t.name = n ∧ t.year = y) <;>
    exact ⟨rfl, rfl, rfl, rfl⟩

/-- After the tournament step, the looked-up name and year resolve to the
returned id. -/
theorem getOrCreateTournament_find (n : String) (y : Int) (db : DB) :
    ∃ t, (getOrCreateTournament n y db).2.tournaments.find?
        (fun t => t.name = n ∧ t.year = y) = some t
      ∧ t.id = (getOrCreateTournament n y db).1 := by
  unfold getOrCreateTournament
  cases hf : db.tournaments.find? (fun t => t.name = n ∧ t.year = y) with
  | none =>
    refine ⟨⟨db.nextTournamentID, n, y⟩, ?_, rfl⟩
    show (db.tournaments ++ [(⟨db.nextTournamentID, n, y⟩ : Tournament)]).find?
      (fun t => t.name = n ∧ t.year = y) = _
    rw [List.find?_append, hf]
    simp
  | some t => exact ⟨t, hf, rfl⟩

/-- The tournament step on a table that already resolves the pair is a pure
lookup. -/
theorem getOrCreateTournament_stable (n : String) (y : Int) (dbY : DB) (tid : Nat)
    (t : Tournament)
    (hfind : dbY.tournaments.find? (fun t => t.name = n ∧ t.year = y) = some t)
    (hid : t.id = tid) :
    getOrCreateTournament n y dbY = (tid, dbY) := by
  unfold getOrCreateTournament
  rw [hfind]
  show (t.id, dbY) = (tid, dbY)
  rw [hid]

/-- The watermark update maps each video row to itself with `last_processed`
true exactly on the target id. -/
theorem setWatermarkRow_videos (vid : Nat) (db : DB) :
    (setWatermarkRow vid db).videos = db.videos.map fun (r : VideoRow) =>
      if r.id = vid then { r with lastProcessed := true }
      else { r with lastProcessed := false } := by
  unfold setWatermarkRow
  show ((db.videos.map fun (r : VideoRow) => { r with lastProcessed := false }).map
      fun (r : VideoRow) =>
        if r.id = vid then { r with lastProcessed := true } else r) = _
  rw [List.map_map]
  apply List.map_congr_left
  intro w _
  show (if w.id = vid then ({ w with lastProcessed := true } : VideoRow)
      else { w with lastProcessed := false }) = _
  rfl

/-- The watermark row transformation keeps every id. -/
theorem wm_map_ids (vid : Nat) (l : List VideoRow) :
    ((l.map fun (r : VideoRow) =>
        if r.id = vid then { r with lastProcessed := true }
        else { r with lastProcessed := false }).map VideoRow.id) =
      l.map VideoRow.id := by
  rw [List.map_map]
  apply List.map_congr_left
  intro w _
  by_cases hw : w.id = vid <;> simp [Function.comp, hw]

/-- The watermark row transformation is idempotent on the table. -/
theorem wm_map_idem (vid : Nat) (l : List VideoRow) :
    ((l.map fun (r : VideoRow) =>
        if r.id = vid then { r with lastProcessed := true }
        else { r with lastProcessed := false }).map fun (r : VideoRow) =>
        if r.id = vid then { r with lastProcessed := true }
        else { r with lastProcessed := false }) =
      l.map fun (r : VideoRow) =>
        if r.id = vid then { r with lastProcessed := true }
        else { r with lastProcessed := false } := by
  rw [List.map_map]
  apply List.map_congr_left
  intro w _
  by_cases hw : w.id = vid <;> simp [Function.comp, hw]

/-- The watermark row transformation keeps all fields but the flag. -/
theorem wmFun_fields (vid : Nat) (r : VideoRow) :
    ((if r.id = vid then ({ r with lastProcessed := true } : VideoRow)
      else { r with lastProcessed := false }).id = r.id)
    ∧ ((if r.id = vid then ({ r with lastProcessed := true } : VideoRow)
      else { r with lastProcessed := false }).youtubeID = r.youtubeID)
    ∧ ((if r.id = vid then ({ r with lastProcessed := true } : VideoRow)
      else { r with lastProcessed := false }).title = r.title)
    ∧ ((if r.id = vid then ({ r with lastProcessed := true } : VideoRow)
      else { r with lastProcessed := false }).uploadDate = r.uploadDate) := by
  by_cases hw : r.id = vid <;> simp [hw]

/-- The video step keeps the video id column duplicate-free. -/
theorem getOrCreateVideo_nodup (y t : String) (u : Int) (db' : DB)
    (hlt : ∀ r ∈ db'.videos, r.id < db'.nextVideoID)
    (hnd : (db'.videos.map VideoRow.id).Nodup) :
    ((getOrCreateVideo y t u db').2.videos.map VideoRow.id).Nodup := by
  have hfresh : db'.nextVideoID ∉ db'.videos.map VideoRow.id := by
    intro hmem
    obtain ⟨r, hr, hid⟩ := List.mem_map.mp hmem
    exact absurd hid (Nat.ne_of_lt (hlt r hr))
  rcases getOrCreateVideo_ids y t u db' with hsame | happ
  · rw [hsame]
    exact hnd
  · rw [happ, List.nodup_append]
    exact ⟨hnd, List.nodup_singleton _, by simpa using fun hmem => hfresh hmem⟩

/-- Replaying the video step when the table already holds the youtube id with
the same title and upload date: the row update is a no-op and the step only
deletes the video's matches and their participants. -/
theorem getOrCreateVideo_replay (yid ttl : String) (u : Int) (dbY : DB) (vid : Nat)
    (row : VideoRow)
    (hfind : dbY.videos.find? (fun r => r.youtubeID = yid) = some row)
    (hid : row.id = vid) (ht : row.title = ttl) (hu : row.uploadDate = u)
    (hnd : (dbY.videos.map VideoRow.id).Nodup) :
    getOrCreateVideo yid ttl u dbY =
      (vid, { dbY with
        participants := dbY.participants.filter fun p =>
          ¬ dbY.matchRows.any fun m => m.id = p.matchID ∧ m.videoID = vid,
        matchRows := dbY.matchRows.filter fun m => ¬ m.videoID = vid }) := by
  subst hid
  unfold getOrCreateVideo
  rw [hfind]
  have hnoop := videos_update_noop dbY.videos row.id ttl u hnd row
    (List.mem_of_find?_eq_some hfind) rfl ht hu
  show (row.id,
    { dbY with
      videos := dbY.videos.map fun (w : VideoRow) =>
        if w.id = row.id then { w with title := ttl, uploadDate := u } else w,
      participants := dbY.participants.filter fun p =>
        ¬ dbY.matchRows.any fun m => m.id = p.matchID ∧ m.videoID = row.id,
      matchRows := dbY.matchRows.filter fun m => ¬ m.videoID = row.id }) = _
  rw [hnoop]

/-- Claim C3 (corrected): import is idempotent for every `VideoDescriptor`
whose `upload_date` parses as a well-formed `YYYYMMDD` date, starting from
any schema-integral database.  A committed import of the video followed by a
second import of the same descriptor (at any wall-clock time, with the same
first-of-file flag) commits again and leaves the tournaments, players and
videos tables unchanged and the matches/participants tables with the same
row count and content (the video's old matches and participants are deleted
and recreated; the generated match ids differ, so the comparison projects
them away).  With a malformed `upload_date` the code's documented fallback
to the current wall clock breaks idempotence (see the counterexample). -/
theorem c3_import_idempotent (now now' : Int) (isNewest : Bool) (db : DB)
    (v : VideoJSON) (db1 : DB) (hwf : WF db)
    (hdate : (parseUploadDate v.uploadDate).isSome)
    (h1 : importVideo now isNewest db v = .ok db1) :
    ∃ db2, importVideo now' isNewest db1 v = .ok db2
      ∧ db2.tournaments = db1.tournaments
      ∧ db2.players = db1.players
      ∧ db2.videos = db1.videos
      ∧ db2.matchRows.map matchContent = db1.matchRows.map matchContent
      ∧ db2.participants.map partContent = db1.participants.map partContent := by
  obtain ⟨t0, hu0⟩ := Option.isSome_iff_exists.mp hdate
  cases htn : parseTournamentFromTitle v.videoTitle with
  | error e =>
    have herr : importVideo now isNewest db v =
        .error ("failed to parse tournament from title: " ++ e) := by
      unfold importVideo
      rw [htn]
    rw [herr] at h1
    exact Except.noConfusion h1
  | ok tn =>
    have hrun1 : importVideo now isNewest db v = .ok (if isNewest
        then setWatermarkRow (getOrCreateVideo v.videoID v.videoTitle t0 (getOrCreateTournament tn.1 tn.2 db).2).1 (insertMatches (getOrCreateTournament tn.1 tn.2 db).1 (getOrCreateVideo v.videoID v.videoTitle t0 (getOrCreateTournament tn.1 tn.2 db).2).1 t0 (v.matchEntries.map fun m => (m.timestamp, m.player1, m.player2)) (getOrCreateVideo v.videoID v.videoTitle t0 (getOrCreateTournament tn.1 tn.2 db).2).2)
        else (insertMatches (getOrCreateTournament tn.1 tn.2 db).1 (getOrCreateVideo v.videoID v.videoTitle t0 (getOrCreateTournament tn.1 tn.2 db).2).1 t0 (v.matchEntries.map fun m => (m.timestamp, m.player1, m.player2)) (getOrCreateVideo v.videoID v.videoTitle t0 (getOrCreateTournament tn.1 tn.2 db).2).2)) := by
      unfold importVideo
      rw [htn, hu0]
    have h1' := hrun1.symm.trans h1
    injection h1' with hdb1
    have hdb1_players : db1.players = (insertMatches (getOrCreateTournament tn.1 tn.2 db).1 (getOrCreateVideo v.videoID v.videoTitle t0 (getOrCreateTournament tn.1 tn.2 db).2).1 t0 (v.matchEntries.map fun m => (m.timestamp, m.player1, m.player2)) (getOrCreateVideo v.videoID v.videoTitle t0 (getOrCreateTournament tn.1 tn.2 db).2).2).players := by
      rw [← hdb1]
      cases isNewest <;> rfl
    have hdb1_matchRows : db1.matchRows = (insertMatches (getOrCreateTournament tn.1 tn.2 db).1 (getOrCreateVideo v.videoID v.videoTitle t0 (getOrCreateTournament tn.1 tn.2 db).2).1 t0 (v.matchEntries.map fun m => (m.timestamp, m.player1, m.player2)) (getOrCreateVideo v.videoID v.videoTitle t0 (getOrCreateTournament tn.1 tn.2 db).2).2).matchRows := by
      rw [← hdb1]
      cases isNewest <;> rfl
    have hdb1_participants : db1.participants = (insertMatches (getOrCreateTournament tn.1 tn.2 db).1 (getOrCreateVideo v.videoID v.videoTitle t0 (getOrCreateTournament tn.1 tn.2 db).2).1 t0 (v.matchEntries.map fun m => (m.timestamp, m.player1, m.player2)) (getOrCreateVideo v.videoID v.videoTitle t0 (getOrCreateTournament tn.1 tn.2 db).2).2).participants := by
      rw [← hdb1]
      cases isNewest <;> rfl
    have hTm : (getOrCreateTournament tn.1 tn.2 db).2.matchRows = db.matchRows := (getOrCreateTournament_rest tn.1 tn.2 db).1
    have hTp : (getOrCreateTournament tn.1 tn.2 db).2.participants = db.participants :=
      (getOrCreateTournament_rest tn.1 tn.2 db).2.1
    have hTk : (getOrCreateTournament tn.1 tn.2 db).2.nextMatchID = db.nextMatchID :=
      (getOrCreateTournament_rest tn.1 tn.2 db).2.2.2
    have hTv : (getOrCreateTournament tn.1 tn.2 db).2.videos = db.videos := getOrCreateTournament_videos tn.1 tn.2 db
    have hTnv : (getOrCreateTournament tn.1 tn.2 db).2.nextVideoID = db.nextVideoID :=
      getOrCreateTournament_nextVideoID tn.1 tn.2 db
    have hFKmT : ∀ mr ∈ (getOrCreateTournament tn.1 tn.2 db).2.matchRows, mr.videoID ∈ (getOrCreateTournament tn.1 tn.2 db).2.videos.map VideoRow.id := by
      rw [hTm, hTv]
      exact hwf.matchVideoFK
    have hltT : ∀ r ∈ (getOrCreateTournament tn.1 tn.2 db).2.videos, r.id < (getOrCreateTournament tn.1 tn.2 db).2.nextVideoID := by
      rw [hTv, hTnv]
      exact hwf.videoIdsLt
    have hndT : ((getOrCreateTournament tn.1 tn.2 db).2.videos.map VideoRow.id).Nodup := by
      rw [hTv]
      exact hwf.videoIdsNodup
    have hVtables := getOrCreateVideo_tables v.videoID v.videoTitle t0 (getOrCreateTournament tn.1 tn.2 db).2 hFKmT hltT
    have hndDV : ((getOrCreateVideo v.videoID v.videoTitle t0 (getOrCreateTournament tn.1 tn.2 db).2).2.videos.map VideoRow.id).Nodup :=
      getOrCreateVideo_nodup v.videoID v.videoTitle t0 (getOrCreateTournament tn.1 tn.2 db).2 hltT hndT
    have hVrest := getOrCreateVideo_rest v.videoID v.videoTitle t0 (getOrCreateTournament tn.1 tn.2 db).2
    obtain ⟨row, hfrow, hrowid, hrowt, hrowu⟩ :=
      getOrCreateVideo_find v.videoID v.videoTitle t0 (getOrCreateTournament tn.1 tn.2 db).2
    obtain ⟨hIres, hIm, hIk, hIp⟩ := insertMatches_spec (getOrCreateTournament tn.1 tn.2 db).1 (getOrCreateVideo v.videoID v.videoTitle t0 (getOrCreateTournament tn.1 tn.2 db).2).1 t0 (v.matchEntries.map fun m => (m.timestamp, m.player1, m.player2)) (getOrCreateVideo v.videoID v.videoTitle t0 (getOrCreateTournament tn.1 tn.2 db).2).2
    have hIv : (insertMatches (getOrCreateTournament tn.1 tn.2 db).1 (getOrCreateVideo v.videoID v.videoTitle t0 (getOrCreateTournament tn.1 tn.2 db).2).1 t0 (v.matchEntries.map fun m => (m.timestamp, m.player1, m.player2)) (getOrCreateVideo v.videoID v.videoTitle t0 (getOrCreateTournament tn.1 tn.2 db).2).2).videos = (getOrCreateVideo v.videoID v.videoTitle t0 (getOrCreateTournament tn.1 tn.2 db).2).2.videos := insertMatches_videos (getOrCreateTournament tn.1 tn.2 db).1 (getOrCreateVideo v.videoID v.videoTitle t0 (getOrCreateTournament tn.1 tn.2 db).2).1 t0 (v.matchEntries.map fun m => (m.timestamp, m.player1, m.player2)) (getOrCreateVideo v.videoID v.videoTitle t0 (getOrCreateTournament tn.1 tn.2 db).2).2
    have hvids1 : db1.videos.map VideoRow.id = (getOrCreateVideo v.videoID v.videoTitle t0 (getOrCreateTournament tn.1 tn.2 db).2).2.videos.map VideoRow.id := by
      rw [← hdb1]
      cases isNewest
      · show (insertMatches (getOrCreateTournament tn.1 tn.2 db).1 (getOrCreateVideo v.videoID v.videoTitle t0 (getOrCreateTournament tn.1 tn.2 db).2).1 t0 (v.matchEntries.map fun m => (m.timestamp, m.player1, m.player2)) (getOrCreateVideo v.videoID v.videoTitle t0 (getOrCreateTournament tn.1 tn.2 db).2).2).videos.map VideoRow.id = _
        rw [hIv]
      · show (setWatermarkRow (getOrCreateVideo v.videoID v.videoTitle t0 (getOrCreateTournament tn.1 tn.2 db).2).1 (insertMatches (getOrCreateTournament tn.1 tn.2 db).1 (getOrCreateVideo v.videoID v.videoTitle t0 (getOrCreateTournament tn.1 tn.2 db).2).1 t0 (v.matchEntries.map fun m => (m.timestamp, m.player1, m.player2)) (getOrCreateVideo v.videoID v.videoTitle t0 (getOrCreateTournament tn.1 tn.2 db).2).2)).videos.map VideoRow.id = _
        rw [setWatermarkRow_videos, wm_map_ids, hIv]
    have hnd1 : (db1.videos.map VideoRow.id).Nodup := by
      rw [hvids1]
      exact hndDV
    have hfind1 : ∃ row1, db1.videos.find? (fun r => r.youtubeID = v.videoID) = some row1
        ∧ row1.id = (getOrCreateVideo v.videoID v.videoTitle t0 (getOrCreateTournament tn.1 tn.2 db).2).1 ∧ row1.title = v.videoTitle ∧ row1.uploadDate = t0 := by
      cases isNewest
      · have hv1 : db1.videos = (getOrCreateVideo v.videoID v.videoTitle t0 (getOrCreateTournament tn.1 tn.2 db).2).2.videos := by
          rw [← hdb1]
          show (insertMatches (getOrCreateTournament tn.1 tn.2 db).1 (getOrCreateVideo v.videoID v.videoTitle t0 (getOrCreateTournament tn.1 tn.2 db).2).1 t0 (v.matchEntries.map fun m => (m.timestamp, m.player1, m.player2)) (getOrCreateVideo v.videoID v.videoTitle t0 (getOrCreateTournament tn.1 tn.2 db).2).2).videos = _
          exact hIv
        refine ⟨row, ?_, hrowid, hrowt, hrowu⟩
        rw [hv1]
        exact hfrow
      · have hv1 : db1.videos = (getOrCreateVideo v.videoID v.videoTitle t0 (getOrCreateTournament tn.1 tn.2 db).2).2.videos.map (fun (r : VideoRow) => if r.id = (getOrCreateVideo v.videoID v.videoTitle t0 (getOrCreateTournament tn.1 tn.2 db).2).1 then { r with lastProcessed := true } else { r with lastProcessed := false }) := by
          rw [← hdb1]
          show (setWatermarkRow (getOrCreateVideo v.videoID v.videoTitle t0 (getOrCreateTournament tn.1 tn.2 db).2).1 (insertMatches (getOrCreateTournament tn.1 tn.2 db).1 (getOrCreateVideo v.videoID v.videoTitle t0 (getOrCreateTournament tn.1 tn.2 db).2).1 t0 (v.matchEntries.map fun m => (m.timestamp, m.player1, m.player2)) (getOrCreateVideo v.videoID v.videoTitle t0 (getOrCreateTournament tn.1 tn.2 db).2).2)).videos = _
          rw [setWatermarkRow_videos, hIv]
        refine ⟨(fun (r : VideoRow) => if r.id = (getOrCreateVideo v.videoID v.videoTitle t0 (getOrCreateTournament tn.1 tn.2 db).2).1 then { r with lastProcessed := true } else { r with lastProcessed := false }) row, ?_, ?_, ?_, ?_⟩
        · rw [hv1, find?_videos_map _ (fun w => (wmFun_fields (getOrCreateVideo v.videoID v.videoTitle t0 (getOrCreateTournament tn.1 tn.2 db).2).1 w).2.1)
            (getOrCreateVideo v.videoID v.videoTitle t0 (getOrCreateTournament tn.1 tn.2 db).2).2.videos v.videoID, hfrow]
          rfl
        · exact ((wmFun_fields (getOrCreateVideo v.videoID v.videoTitle t0 (getOrCreateTournament tn.1 tn.2 db).2).1 row).1).trans hrowid
        · exact ((wmFun_fields (getOrCreateVideo v.videoID v.videoTitle t0 (getOrCreateTournament tn.1 tn.2 db).2).1 row).2.2.1).trans hrowt
        · exact ((wmFun_fields (getOrCreateVideo v.videoID v.videoTitle t0 (getOrCreateTournament tn.1 tn.2 db).2).1 row).2.2.2).trans hrowu
    obtain ⟨row1, hfind1a, hrow1id, hrow1t, hrow1u⟩ := hfind1
    have hV2 := getOrCreateVideo_replay v.videoID v.videoTitle t0 db1 (getOrCreateVideo v.videoID v.videoTitle t0 (getOrCreateTournament tn.1 tn.2 db).2).1 row1
      hfind1a hrow1id hrow1t hrow1u hnd1
    have hd1m : db1.matchRows = (getOrCreateVideo v.videoID v.videoTitle t0 (getOrCreateTournament tn.1 tn.2 db).2).2.matchRows ++
        matchRowsFor (getOrCreateTournament tn.1 tn.2 db).1 (getOrCreateVideo v.videoID v.videoTitle t0 (getOrCreateTournament tn.1 tn.2 db).2).1 t0 (getOrCreateVideo v.videoID v.videoTitle t0 (getOrCreateTournament tn.1 tn.2 db).2).2.nextMatchID (v.matchEntries.map fun m => (m.timestamp, m.player1, m.player2)) := hdb1_matchRows.trans hIm
    have hfiltM : db1.matchRows.filter (fun m => ¬ m.videoID = (getOrCreateVideo v.videoID v.videoTitle t0 (getOrCreateTournament tn.1 tn.2 db).2).1) = (getOrCreateVideo v.videoID v.videoTitle t0 (getOrCreateTournament tn.1 tn.2 db).2).2.matchRows := by
      rw [hd1m, List.filter_append]
      have h2 : (matchRowsFor (getOrCreateTournament tn.1 tn.2 db).1 (getOrCreateVideo v.videoID v.videoTitle t0 (getOrCreateTournament tn.1 tn.2 db).2).1 t0 (getOrCreateVideo v.videoID v.videoTitle t0 (getOrCreateTournament tn.1 tn.2 db).2).2.nextMatchID (v.matchEntries.map fun m => (m.timestamp, m.player1, m.player2))).filter (fun m => ¬ m.videoID = (getOrCreateVideo v.videoID v.videoTitle t0 (getOrCreateTournament tn.1 tn.2 db).2).1) = [] := by
        rw [List.filter_eq_nil_iff]
        intro a ha
        have hv := (matchRowsFor_mem (getOrCreateTournament tn.1 tn.2 db).1 (getOrCreateVideo v.videoID v.videoTitle t0 (getOrCreateTournament tn.1 tn.2 db).2).1 t0 (v.matchEntries.map fun m => (m.timestamp, m.player1, m.player2)) (getOrCreateVideo v.videoID v.videoTitle t0 (getOrCreateTournament tn.1 tn.2 db).2).2.nextMatchID a ha).1
        simp [hv]
      have h1f : (getOrCreateVideo v.videoID v.videoTitle t0 (getOrCreateTournament tn.1 tn.2 db).2).2.matchRows.filter (fun m => ¬ m.videoID = (getOrCreateVideo v.videoID v.videoTitle t0 (getOrCreateTournament tn.1 tn.2 db).2).1) = (getOrCreateVideo v.videoID v.videoTitle t0 (getOrCreateTournament tn.1 tn.2 db).2).2.matchRows := by
        rw [hVtables.1]
        refine List.filter_eq_self.mpr ?_
        intro a ha
        have hfa := List.of_mem_filter ha
        exact hfa
      rw [h2, h1f, List.append_nil]
    have hfiltP : db1.participants.filter (fun p => ¬ db1.matchRows.any fun m => m.id = p.matchID ∧ m.videoID = (getOrCreateVideo v.videoID v.videoTitle t0 (getOrCreateTournament tn.1 tn.2 db).2).1) = (getOrCreateVideo v.videoID v.videoTitle t0 (getOrCreateTournament tn.1 tn.2 db).2).2.participants := by
      rw [hdb1_participants, hIp, List.filter_append]
      have h2 : (partsFor (fun n => (pidOf (insertMatches (getOrCreateTournament tn.1 tn.2 db).1 (getOrCreateVideo v.videoID v.videoTitle t0 (getOrCreateTournament tn.1 tn.2 db).2).1 t0 (v.matchEntries.map fun m => (m.timestamp, m.player1, m.player2)) (getOrCreateVideo v.videoID v.videoTitle t0 (getOrCreateTournament tn.1 tn.2 db).2).2).players n).getD 0) (getOrCreateVideo v.videoID v.videoTitle t0 (getOrCreateTournament tn.1 tn.2 db).2).2.nextMatchID (v.matchEntries.map fun m => (m.timestamp, m.player1, m.player2))).filter (fun p => ¬ db1.matchRows.any fun m => m.id = p.matchID ∧ m.videoID = (getOrCreateVideo v.videoID v.videoTitle t0 (getOrCreateTournament tn.1 tn.2 db).2).1) = [] := by
        rw [List.filter_eq_nil_iff]
        intro p hp
        obtain ⟨mr, hmr, hmrid⟩ :=
          partsFor_matchRowsFor _ (getOrCreateTournament tn.1 tn.2 db).1 (getOrCreateVideo v.videoID v.videoTitle t0 (getOrCreateTournament tn.1 tn.2 db).2).1 t0 (v.matchEntries.map fun m => (m.timestamp, m.player1, m.player2)) (getOrCreateVideo v.videoID v.videoTitle t0 (getOrCreateTournament tn.1 tn.2 db).2).2.nextMatchID p hp
        have hvid := (matchRowsFor_mem (getOrCreateTournament tn.1 tn.2 db).1 (getOrCreateVideo v.videoID v.videoTitle t0 (getOrCreateTournament tn.1 tn.2 db).2).1 t0 (v.matchEntries.map fun m => (m.timestamp, m.player1, m.player2)) (getOrCreateVideo v.videoID v.videoTitle t0 (getOrCreateTournament tn.1 tn.2 db).2).2.nextMatchID mr hmr).1
        have hmem1 : mr ∈ db1.matchRows := by
          rw [hd1m]
          exact List.mem_append_right _ hmr
        have hany : (db1.matchRows.any fun m =>
            m.id = p.matchID ∧ m.videoID = (getOrCreateVideo v.videoID v.videoTitle t0 (getOrCreateTournament tn.1 tn.2 db).2).1) = true :=
          List.any_eq_true.mpr ⟨mr, hmem1, decide_eq_true ⟨hmrid, hvid⟩⟩
        simp only [decide_eq_true_eq]
        rw [not_not]
        exact hany
      have h1f : (getOrCreateVideo v.videoID v.videoTitle t0 (getOrCreateTournament tn.1 tn.2 db).2).2.participants.filter (fun p => ¬ db1.matchRows.any fun m => m.id = p.matchID ∧ m.videoID = (getOrCreateVideo v.videoID v.videoTitle t0 (getOrCreateTournament tn.1 tn.2 db).2).1) = (getOrCreateVideo v.videoID v.videoTitle t0 (getOrCreateTournament tn.1 tn.2 db).2).2.participants := by
        apply List.filter_eq_self.mpr
        intro p hpmem
        have hpmem' := hpmem
        rw [hVtables.2] at hpmem'
        have hpT := List.mem_of_mem_filter hpmem'
        rw [hTp] at hpT
        have hmid : p.matchID < db.nextMatchID := by
          obtain ⟨m0, hm0, hm0id⟩ := List.mem_map.mp (hwf.partMatchFK p hpT)
          have := hwf.matchIdsLt m0 hm0
          omega
        have hK : (getOrCreateVideo v.videoID v.videoTitle t0 (getOrCreateTournament tn.1 tn.2 db).2).2.nextMatchID = db.nextMatchID := hVrest.2.2.1.trans hTk
        simp only [decide_eq_true_eq, List.any_eq_true, not_exists]
        rintro mr ⟨hmr, hcond⟩
        obtain ⟨hc1, hc2⟩ := hcond
        rw [hd1m] at hmr
        rcases List.mem_append.mp hmr with hA | hB
        · rw [hVtables.1] at hA
          have hA' := List.of_mem_filter hA
          simp at hA'
          exact hA' hc2
        · have hge := (matchRowsFor_mem (getOrCreateTournament tn.1 tn.2 db).1 (getOrCreateVideo v.videoID v.videoTitle t0 (getOrCreateTournament tn.1 tn.2 db).2).1 t0 (v.matchEntries.map fun m => (m.timestamp, m.player1, m.player2)) (getOrCreateVideo v.videoID v.videoTitle t0 (getOrCreateTournament tn.1 tn.2 db).2).2.nextMatchID mr hB).2
          rw [hK] at hge
          omega
      rw [h2, h1f, List.append_nil]
    rw [hfiltP, hfiltM] at hV2
    have htour1 : db1.tournaments = (getOrCreateTournament tn.1 tn.2 db).2.tournaments := by
      rw [← hdb1]
      cases isNewest
      all_goals
        show (insertMatches (getOrCreateTournament tn.1 tn.2 db).1 (getOrCreateVideo v.videoID v.videoTitle t0 (getOrCreateTournament tn.1 tn.2 db).2).1 t0 (v.matchEntries.map fun m => (m.timestamp, m.player1, m.player2)) (getOrCreateVideo v.videoID v.videoTitle t0 (getOrCreateTournament tn.1 tn.2 db).2).2).tournaments = (getOrCreateTournament tn.1 tn.2 db).2.tournaments
        rw [(insertMatches_rest (getOrCreateTournament tn.1 tn.2 db).1 (getOrCreateVideo v.videoID v.videoTitle t0 (getOrCreateTournament tn.1 tn.2 db).2).1 t0 (v.matchEntries.map fun m => (m.timestamp, m.player1, m.player2)) (getOrCreateVideo v.videoID v.videoTitle t0 (getOrCreateTournament tn.1 tn.2 db).2).2).1]
        exact hVrest.1
    obtain ⟨trow, htfind, htid⟩ := getOrCreateTournament_find tn.1 tn.2 db
    have htfind1 : db1.tournaments.find? (fun t => t.name = tn.1 ∧ t.year = tn.2) =
        some trow := by
      rw [htour1]
      exact htfind
    have hT2 := getOrCreateTournament_stable tn.1 tn.2 db1 (getOrCreateTournament tn.1 tn.2 db).1 trow htfind1 htid
    have hT2b : (getOrCreateTournament tn.1 tn.2 db1).2 = db1 := by rw [hT2]
    have hopen : importVideo now' isNewest db1 v = .ok (if isNewest
        then setWatermarkRow (getOrCreateVideo v.videoID v.videoTitle t0 (getOrCreateTournament tn.1 tn.2 db1).2).1
          (insertMatches (getOrCreateTournament tn.1 tn.2 db1).1 (getOrCreateVideo v.videoID v.videoTitle t0 (getOrCreateTournament tn.1 tn.2 db1).2).1 t0
            (v.matchEntries.map fun m => (m.timestamp, m.player1, m.player2)) (getOrCreateVideo v.videoID v.videoTitle t0 (getOrCreateTournament tn.1 tn.2 db1).2).2)
        else insertMatches (getOrCreateTournament tn.1 tn.2 db1).1 (getOrCreateVideo v.videoID v.videoTitle t0 (getOrCreateTournament tn.1 tn.2 db1).2).1 t0
          (v.matchEntries.map fun m => (m.timestamp, m.player1, m.player2)) (getOrCreateVideo v.videoID v.videoTitle t0 (getOrCreateTournament tn.1 tn.2 db1).2).2) := by
      unfold importVideo
      rw [htn, hu0]
    rw [hT2b] at hopen
    rw [hV2] at hopen
    rw [hT2] at hopen
    obtain ⟨hI2res, hI2m, hI2k, hI2p⟩ := insertMatches_spec (getOrCreateTournament tn.1 tn.2 db).1 (getOrCreateVideo v.videoID v.videoTitle t0 (getOrCreateTournament tn.1 tn.2 db).2).1 t0 (v.matchEntries.map fun m => (m.timestamp, m.player1, m.player2)) { db1 with participants := (getOrCreateVideo v.videoID v.videoTitle t0 (getOrCreateTournament tn.1 tn.2 db).2).2.participants, matchRows := (getOrCreateVideo v.videoID v.videoTitle t0 (getOrCreateTournament tn.1 tn.2 db).2).2.matchRows }
    have hres2 : ∀ n ∈ participantNames (v.matchEntries.map fun m => (m.timestamp, m.player1, m.player2)), (pidOf ({ db1 with participants := (getOrCreateVideo v.videoID v.videoTitle t0 (getOrCreateTournament tn.1 tn.2 db).2).2.participants, matchRows := (getOrCreateVideo v.videoID v.videoTitle t0 (getOrCreateTournament tn.1 tn.2 db).2).2.matchRows } : DB).players n).isSome := by
      intro n hn
      have hsome := hIres n hn
      show (pidOf db1.players n).isSome
      rw [hdb1_players]
      exact hsome
    have hplayers2 : (insertMatches (getOrCreateTournament tn.1 tn.2 db).1 (getOrCreateVideo v.videoID v.videoTitle t0 (getOrCreateTournament tn.1 tn.2 db).2).1 t0 (v.matchEntries.map fun m => (m.timestamp, m.player1, m.player2)) { db1 with participants := (getOrCreateVideo v.videoID v.videoTitle t0 (getOrCreateTournament tn.1 tn.2 db).2).2.participants, matchRows := (getOrCreateVideo v.videoID v.videoTitle t0 (getOrCreateTournament tn.1 tn.2 db).2).2.matchRows }).players = db1.players := by
      rw [insertMatches_no_new_players (getOrCreateTournament tn.1 tn.2 db).1 (getOrCreateVideo v.videoID v.videoTitle t0 (getOrCreateTournament tn.1 tn.2 db).2).1 t0 (v.matchEntries.map fun m => (m.timestamp, m.player1, m.player2)) { db1 with participants := (getOrCreateVideo v.videoID v.videoTitle t0 (getOrCreateTournament tn.1 tn.2 db).2).2.participants, matchRows := (getOrCreateVideo v.videoID v.videoTitle t0 (getOrCreateTournament tn.1 tn.2 db).2).2.matchRows } hres2]
    have hchain : (insertMatches (getOrCreateTournament tn.1 tn.2 db).1 (getOrCreateVideo v.videoID v.videoTitle t0 (getOrCreateTournament tn.1 tn.2 db).2).1 t0 (v.matchEntries.map fun m => (m.timestamp, m.player1, m.player2)) { db1 with participants := (getOrCreateVideo v.videoID v.videoTitle t0 (getOrCreateTournament tn.1 tn.2 db).2).2.participants, matchRows := (getOrCreateVideo v.videoID v.videoTitle t0 (getOrCreateTournament tn.1 tn.2 db).2).2.matchRows }).players = (insertMatches (getOrCreateTournament tn.1 tn.2 db).1 (getOrCreateVideo v.videoID v.videoTitle t0 (getOrCreateTournament tn.1 tn.2 db).2).1 t0 (v.matchEntries.map fun m => (m.timestamp, m.player1, m.player2)) (getOrCreateVideo v.videoID v.videoTitle t0 (getOrCreateTournament tn.1 tn.2 db).2).2).players := hplayers2.trans hdb1_players
    have hfun : (fun n => (pidOf (insertMatches (getOrCreateTournament tn.1 tn.2 db).1 (getOrCreateVideo v.videoID v.videoTitle t0 (getOrCreateTournament tn.1 tn.2 db).2).1 t0 (v.matchEntries.map fun m => (m.timestamp, m.player1, m.player2)) { db1 with participants := (getOrCreateVideo v.videoID v.videoTitle t0 (getOrCreateTournament tn.1 tn.2 db).2).2.participants, matchRows := (getOrCreateVideo v.videoID v.videoTitle t0 (getOrCreateTournament tn.1 tn.2 db).2).2.matchRows }).players n).getD 0) = (fun n => (pidOf (insertMatches (getOrCreateTournament tn.1 tn.2 db).1 (getOrCreateVideo v.videoID v.videoTitle t0 (getOrCreateTournament tn.1 tn.2 db).2).1 t0 (v.matchEntries.map fun m => (m.timestamp, m.player1, m.player2)) (getOrCreateVideo v.videoID v.videoTitle t0 (getOrCreateTournament tn.1 tn.2 db).2).2).players n).getD 0) := by
      rw [hchain]
    have hm2 : (insertMatches (getOrCreateTournament tn.1 tn.2 db).1 (getOrCreateVideo v.videoID v.videoTitle t0 (getOrCreateTournament tn.1 tn.2 db).2).1 t0 (v.matchEntries.map fun m => (m.timestamp, m.player1, m.player2)) { db1 with participants := (getOrCreateVideo v.videoID v.videoTitle t0 (getOrCreateTournament tn.1 tn.2 db).2).2.participants, matchRows := (getOrCreateVideo v.videoID v.videoTitle t0 (getOrCreateTournament tn.1 tn.2 db).2).2.matchRows }).matchRows = (getOrCreateVideo v.videoID v.videoTitle t0 (getOrCreateTournament tn.1 tn.2 db).2).2.matchRows ++
        matchRowsFor (getOrCreateTournament tn.1 tn.2 db).1 (getOrCreateVideo v.videoID v.videoTitle t0 (getOrCreateTournament tn.1 tn.2 db).2).1 t0 db1.nextMatchID (v.matchEntries.map fun m => (m.timestamp, m.player1, m.player2)) := by
      rw [hI2m]
    have hp2 : (insertMatches (getOrCreateTournament tn.1 tn.2 db).1 (getOrCreateVideo v.videoID v.videoTitle t0 (getOrCreateTournament tn.1 tn.2 db).2).1 t0 (v.matchEntries.map fun m => (m.timestamp, m.player1, m.player2)) { db1 with participants := (getOrCreateVideo v.videoID v.videoTitle t0 (getOrCreateTournament tn.1 tn.2 db).2).2.participants, matchRows := (getOrCreateVideo v.videoID v.videoTitle t0 (getOrCreateTournament tn.1 tn.2 db).2).2.matchRows }).participants = (getOrCreateVideo v.videoID v.videoTitle t0 (getOrCreateTournament tn.1 tn.2 db).2).2.participants ++
        partsFor (fun n => (pidOf (insertMatches (getOrCreateTournament tn.1 tn.2 db).1 (getOrCreateVideo v.videoID v.videoTitle t0 (getOrCreateTournament tn.1 tn.2 db).2).1 t0 (v.matchEntries.map fun m => (m.timestamp, m.player1, m.player2)) (getOrCreateVideo v.videoID v.videoTitle t0 (getOrCreateTournament tn.1 tn.2 db).2).2).players n).getD 0) db1.nextMatchID (v.matchEntries.map fun m => (m.timestamp, m.player1, m.player2)) := by
      rw [hI2p, hfun]
    have hp1 : db1.participants = (getOrCreateVideo v.videoID v.videoTitle t0 (getOrCreateTournament tn.1 tn.2 db).2).2.participants ++
        partsFor (fun n => (pidOf (insertMatches (getOrCreateTournament tn.1 tn.2 db).1 (getOrCreateVideo v.videoID v.videoTitle t0 (getOrCreateTournament tn.1 tn.2 db).2).1 t0 (v.matchEntries.map fun m => (m.timestamp, m.player1, m.player2)) (getOrCreateVideo v.videoID v.videoTitle t0 (getOrCreateTournament tn.1 tn.2 db).2).2).players n).getD 0) (getOrCreateVideo v.videoID v.videoTitle t0 (getOrCreateTournament tn.1 tn.2 db).2).2.nextMatchID (v.matchEntries.map fun m => (m.timestamp, m.player1, m.player2)) := hdb1_participants.trans hIp
    refine ⟨if isNewest then setWatermarkRow (getOrCreateVideo v.videoID v.videoTitle t0 (getOrCreateTournament tn.1 tn.2 db).2).1 (insertMatches (getOrCreateTournament tn.1 tn.2 db).1 (getOrCreateVideo v.videoID v.videoTitle t0 (getOrCreateTournament tn.1 tn.2 db).2).1 t0 (v.matchEntries.map fun m => (m.timestamp, m.player1, m.player2)) { db1 with participants := (getOrCreateVideo v.videoID v.videoTitle t0 (getOrCreateTournament tn.1 tn.2 db).2).2.participants, matchRows := (getOrCreateVideo v.videoID v.videoTitle t0 (getOrCreateTournament tn.1 tn.2 db).2).2.matchRows }) else (insertMatches (getOrCreateTournament tn.1 tn.2 db).1 (getOrCreateVideo v.videoID v.videoTitle t0 (getOrCreateTournament tn.1 tn.2 db).2).1 t0 (v.matchEntries.map fun m => (m.timestamp, m.player1, m.player2)) { db1 with participants := (getOrCreateVideo v.videoID v.videoTitle t0 (getOrCreateTournament tn.1 tn.2 db).2).2.participants, matchRows := (getOrCreateVideo v.videoID v.videoTitle t0 (getOrCreateTournament tn.1 tn.2 db).2).2.matchRows }),
      hopen, ?_, ?_, ?_, ?_, ?_⟩
    · cases isNewest
      all_goals
        show (insertMatches (getOrCreateTournament tn.1 tn.2 db).1 (getOrCreateVideo v.videoID v.videoTitle t0 (getOrCreateTournament tn.1 tn.2 db).2).1 t0 (v.matchEntries.map fun m => (m.timestamp, m.player1, m.player2)) { db1 with participants := (getOrCreateVideo v.videoID v.videoTitle t0 (getOrCreateTournament tn.1 tn.2 db).2).2.participants, matchRows := (getOrCreateVideo v.videoID v.videoTitle t0 (getOrCreateTournament tn.1 tn.2 db).2).2.matchRows }).tournaments = db1.tournaments
        rw [(insertMatches_rest (getOrCreateTournament tn.1 tn.2 db).1 (getOrCreateVideo v.videoID v.videoTitle t0 (getOrCreateTournament tn.1 tn.2 db).2).1 t0 (v.matchEntries.map fun m => (m.timestamp, m.player1, m.player2)) { db1 with participants := (getOrCreateVideo v.videoID v.videoTitle t0 (getOrCreateTournament tn.1 tn.2 db).2).2.participants, matchRows := (getOrCreateVideo v.videoID v.videoTitle t0 (getOrCreateTournament tn.1 tn.2 db).2).2.matchRows }).1]
    · cases isNewest
      all_goals
        show (insertMatches (getOrCreateTournament tn.1 tn.2 db).1 (getOrCreateVideo v.videoID v.videoTitle t0 (getOrCreateTournament tn.1 tn.2 db).2).1 t0 (v.matchEntries.map fun m => (m.timestamp, m.player1, m.player2)) { db1 with participants := (getOrCreateVideo v.videoID v.videoTitle t0 (getOrCreateTournament tn.1 tn.2 db).2).2.participants, matchRows := (getOrCreateVideo v.videoID v.videoTitle t0 (getOrCreateTournament tn.1 tn.2 db).2).2.matchRows }).players = db1.players
        exact hplayers2
    · cases isNewest
      · show (insertMatches (getOrCreateTournament tn.1 tn.2 db).1 (getOrCreateVideo v.videoID v.videoTitle t0 (getOrCreateTournament tn.1 tn.2 db).2).1 t0 (v.matchEntries.map fun m => (m.timestamp, m.player1, m.player2)) { db1 with participants := (getOrCreateVideo v.videoID v.videoTitle t0 (getOrCreateTournament tn.1 tn.2 db).2).2.participants, matchRows := (getOrCreateVideo v.videoID v.videoTitle t0 (getOrCreateTournament tn.1 tn.2 db).2).2.matchRows }).videos = db1.videos
        rw [insertMatches_videos]
      · show (setWatermarkRow (getOrCreateVideo v.videoID v.videoTitle t0 (getOrCreateTournament tn.1 tn.2 db).2).1 (insertMatches (getOrCreateTournament tn.1 tn.2 db).1 (getOrCreateVideo v.videoID v.videoTitle t0 (getOrCreateTournament tn.1 tn.2 db).2).1 t0 (v.matchEntries.map fun m => (m.timestamp, m.player1, m.player2)) { db1 with participants := (getOrCreateVideo v.videoID v.videoTitle t0 (getOrCreateTournament tn.1 tn.2 db).2).2.participants, matchRows := (getOrCreateVideo v.videoID v.videoTitle t0 (getOrCreateTournament tn.1 tn.2 db).2).2.matchRows })).videos = db1.videos
        rw [setWatermarkRow_videos, insertMatches_videos]
        show db1.videos.map (fun (r : VideoRow) => if r.id = (getOrCreateVideo v.videoID v.videoTitle t0 (getOrCreateTournament tn.1 tn.2 db).2).1 then { r with lastProcessed := true } else { r with lastProcessed := false }) = db1.videos
        have hvidtrue : db1.videos = (insertMatches (getOrCreateTournament tn.1 tn.2 db).1 (getOrCreateVideo v.videoID v.videoTitle t0 (getOrCreateTournament tn.1 tn.2 db).2).1 t0 (v.matchEntries.map fun m => (m.timestamp, m.player1, m.player2)) (getOrCreateVideo v.videoID v.videoTitle t0 (getOrCreateTournament tn.1 tn.2 db).2).2).videos.map (fun (r : VideoRow) => if r.id = (getOrCreateVideo v.videoID v.videoTitle t0 (getOrCreateTournament tn.1 tn.2 db).2).1 then { r with lastProcessed := true } else { r with lastProcessed := false }) := by
          rw [← hdb1]
          exact setWatermarkRow_videos (getOrCreateVideo v.videoID v.videoTitle t0 (getOrCreateTournament tn.1 tn.2 db).2).1 (insertMatches (getOrCreateTournament tn.1 tn.2 db).1 (getOrCreateVideo v.videoID v.videoTitle t0 (getOrCreateTournament tn.1 tn.2 db).2).1 t0 (v.matchEntries.map fun m => (m.timestamp, m.player1, m.player2)) (getOrCreateVideo v.videoID v.videoTitle t0 (getOrCreateTournament tn.1 tn.2 db).2).2)
        rw [hvidtrue]
        exact wm_map_idem (getOrCreateVideo v.videoID v.videoTitle t0 (getOrCreateTournament tn.1 tn.2 db).2).1 (insertMatches (getOrCreateTournament tn.1 tn.2 db).1 (getOrCreateVideo v.videoID v.videoTitle t0 (getOrCreateTournament tn.1 tn.2 db).2).1 t0 (v.matchEntries.map fun m => (m.timestamp, m.player1, m.player2)) (getOrCreateVideo v.videoID v.videoTitle t0 (getOrCreateTournament tn.1 tn.2 db).2).2).videos
    · cases isNewest
      all_goals
        show (insertMatches (getOrCreateTournament tn.1 tn.2 db).1 (getOrCreateVideo v.videoID v.videoTitle t0 (getOrCreateTournament tn.1 tn.2 db).2).1 t0 (v.matchEntries.map fun m => (m.timestamp, m.player1, m.player2)) { db1 with participants := (getOrCreateVideo v.videoID v.videoTitle t0 (getOrCreateTournament tn.1 tn.2 db).2).2.participants, matchRows := (getOrCreateVideo v.videoID v.videoTitle t0 (getOrCreateTournament tn.1 tn.2 db).2).2.matchRows }).matchRows.map matchContent = db1.matchRows.map matchContent
        rw [hm2, hd1m, List.map_append, List.map_append,
          matchRowsFor_content (getOrCreateTournament tn.1 tn.2 db).1 (getOrCreateVideo v.videoID v.videoTitle t0 (getOrCreateTournament tn.1 tn.2 db).2).1 t0 (v.matchEntries.map fun m => (m.timestamp, m.player1, m.player2)) db1.nextMatchID (getOrCreateVideo v.videoID v.videoTitle t0 (getOrCreateTournament tn.1 tn.2 db).2).2.nextMatchID]
    · cases isNewest
      all_goals
        show (insertMatches (getOrCreateTournament tn.1 tn.2 db).1 (getOrCreateVideo v.videoID v.videoTitle t0 (getOrCreateTournament tn.1 tn.2 db).2).1 t0 (v.matchEntries.map fun m => (m.timestamp, m.player1, m.player2)) { db1 with participants := (getOrCreateVideo v.videoID v.videoTitle t0 (getOrCreateTournament tn.1 tn.2 db).2).2.participants, matchRows := (getOrCreateVideo v.videoID v.videoTitle t0 (getOrCreateTournament tn.1 tn.2 db).2).2.matchRows }).participants.map partContent = db1.participants.map partContent
        rw [hp2, hp1, List.map_append, List.map_append,
          partsFor_content (fun n => (pidOf (insertMatches (getOrCreateTournament tn.1 tn.2 db).1 (getOrCreateVideo v.videoID v.videoTitle t0 (getOrCreateTournament tn.1 tn.2 db).2).1 t0 (v.matchEntries.map fun m => (m.timestamp, m.player1, m.player2)) (getOrCreateVideo v.videoID v.videoTitle t0 (getOrCreateTournament tn.1 tn.2 db).2).2).players n).getD 0) (v.matchEntries.map fun m => (m.timestamp, m.player1, m.player2)) db1.nextMatchID (getOrCreateVideo v.videoID v.videoTitle t0 (getOrCreateTournament tn.1 tn.2 db).2).2.nextMatchID]

/-- A video descriptor with a well-formed upload date, for the idempotence
witness. -/
def c3Video : VideoJSON :=
  { videoID := "C3VID", videoTitle := "A | B | WTT Foo 2026",
    uploadDate := "20260215", matchEntries := [⟨10, "X", "Y/Z"⟩] }

/-- The committed state after importing `c3Video` into a fresh database. -/
def c3Db1 : DB :=
  match importVideo 0 true emptyDB c3Video with
  | .ok d => d
  | .error _ => emptyDB

/-- A video descriptor whose upload date does not parse, so the importer
falls back to the wall clock. -/
def c3BadVideo : VideoJSON :=
  { videoID := "C3BAD", videoTitle := "A | B | WTT Foo 2026",
    uploadDate := "not-a-date", matchEntries := [⟨10, "X", "Y"⟩] }

/-- The committed state after importing `c3BadVideo` at wall-clock 0. -/
def c3BadDb1 : DB :=
  match importVideo 0 true emptyDB c3BadVideo with
  | .ok d => d
  | .error _ => emptyDB

/-- The committed state after reimporting `c3BadVideo` one day later. -/
def c3BadDb2 : DB :=
  match importVideo 86400 true c3BadDb1 c3BadVideo with
  | .ok d => d
  | .error _ => emptyDB

/-- Claim C3, as stated, fails on a `VideoDescriptor` whose `upload_date`
is malformed: the importer falls back to `time.Now()` for the upload date,
so reimporting the same descriptor one day later rewrites the video's
upload date and recreates its match with a different `match_timestamp` -
the match content of the two imports differs, although both succeed. -/
theorem c3_counterexample :
    importVideo 0 true emptyDB c3BadVideo = .ok c3BadDb1
    ∧ importVideo 86400 true c3BadDb1 c3BadVideo = .ok c3BadDb2
    ∧ ¬ (c3BadDb2.matchRows.map matchContent = c3BadDb1.matchRows.map matchContent) := by
  refine ⟨rfl, rfl, ?_⟩
  decide

/-- Witness for C3: the corrected idempotence theorem applied to `c3Video`
(valid `20260215` upload date) on the fresh database, with a different
wall-clock time for the second import. -/
theorem c3_import_idempotent_witness :
    ∃ db2, importVideo 999 true c3Db1 c3Video = .ok db2
      ∧ db2.tournaments = c3Db1.tournaments
      ∧ db2.players = c3Db1.players
      ∧ db2.videos = c3Db1.videos
      ∧ db2.matchRows.map matchContent = c3Db1.matchRows.map matchContent
      ∧ db2.participants.map partContent = c3Db1.participants.map partContent :=
  c3_import_idempotent 0 999 true emptyDB c3Video c3Db1
    ⟨fun r hr => absurd hr (List.not_mem_nil r), List.nodup_nil,
     fun m hm => absurd hm (List.not_mem_nil m),
     fun m hm => absurd hm (List.not_mem_nil m),
     fun p hp => absurd hp (List.not_mem_nil p)⟩
    (by decide) rfl
